import Mathlib

/-
Verification of the council routing core of cursor-gastown
(internal/council: config.go, router.go, patterns.go, metrics.go).

Shallow embedding conventions:
  - Go maps are embedded as association lists in insertion order; map
    iteration is modelled as iteration in that (configuration) order.
  - Go int and int64 (including time.Duration and Unix-nano timestamps)
    are embedded as Int; wall-clock reads (time.Now) become explicit
    now-parameters.  float64 is embedded as Q (exact rationals).
  - Nil-able Go pointers and nil-able maps that the code distinguishes
    from empty are embedded as Option; maps whose nil-ness the embedded
    code never distinguishes from emptiness are embedded as plain lists.
  - File and network I/O (config file reading, metrics persistence,
    HTTP health probes) is outside the embedding; the pure state
    transformations the source performs around it are embedded directly.
-/

namespace Council

/-- Complexity levels, from config.go (ComplexityLow | ComplexityMedium |
ComplexityHigh). -/
inductive ComplexityLevel where
  | low
  | medium
  | high
deriving DecidableEq, Repr

/-- String rendering of a complexity level, from ComplexityLevel.String in
config.go. -/
def ComplexityLevel.toStr : ComplexityLevel → String
  | .low => "low"
  | .medium => "medium"
  | .high => "high"

/-- TaskInfo from router.go: the task signal used for complexity analysis. -/
structure TaskInfo where
  filesAffected : Int
  linesChanged : Int
  isArchitectural : Bool
  hasTests : Bool
  description : String
deriving DecidableEq, Repr

/-- assessComplexity from router.go lines 169-215: additive score over the
task signal, mapped to a complexity tier; medium when the signal is nil. -/
def assessComplexity : Option TaskInfo → ComplexityLevel
  | none => .medium
  | some task =>
    let score : Int :=
      (if task.filesAffected ≥ 10 then 3
       else if task.filesAffected ≥ 5 then 2
       else if task.filesAffected ≥ 2 then 1 else 0)
      + (if task.linesChanged ≥ 500 then 3
         else if task.linesChanged ≥ 200 then 2
         else if task.linesChanged ≥ 50 then 1 else 0)
      + (if task.isArchitectural then 3 else 0)
      + (if task.hasTests then 1 else 0)
    if score ≥ 6 then .high
    else if score ≥ 3 then .medium
    else .low

/-- Spec-side formulation of the files-affected score (written from the
claim text): one point for each of the thresholds 2, 5, 10 that the count
reaches. -/
def filesScoreSpec (files : Int) : Int :=
  (if files ≥ 2 then 1 else 0) + (if files ≥ 5 then 1 else 0)
    + (if files ≥ 10 then 1 else 0)

/-- Spec-side formulation of the lines-changed score (written from the
claim text): one point for each of the thresholds 50, 200, 500 reached. -/
def linesScoreSpec (lines : Int) : Int :=
  (if lines ≥ 50 then 1 else 0) + (if lines ≥ 200 then 1 else 0)
    + (if lines ≥ 500 then 1 else 0)

/-- Spec-side complexity assessment, written from the words of claim C1:
additive score with the stated thresholds, then score ≥ 6 is high,
score ≥ 3 is medium, else low; medium for an absent task signal. -/
def assessComplexitySpec : Option TaskInfo → ComplexityLevel
  | none => .medium
  | some task =>
    let score := filesScoreSpec task.filesAffected
      + linesScoreSpec task.linesChanged
      + (if task.isArchitectural then 3 else 0)
      + (if task.hasTests then 1 else 0)
    if score ≥ 6 then .high
    else if score ≥ 3 then .medium
    else .low

/-- ComplexityConfig from config.go: per-tier model names. -/
structure ComplexityConfig where
  high : String
  medium : String
  low : String
deriving DecidableEq, Repr

/-- RoleConfig from config.go. -/
structure RoleConfig where
  model : String
  fallback : List String
  rationale : String
  complexityRouting : Bool
  complexity : Option ComplexityConfig
  provider : String
deriving DecidableEq, Repr

/-- DefaultConfig from config.go. -/
structure DefaultConfig where
  model : String
  provider : String
  fallback : List String
deriving DecidableEq, Repr

/-- ProviderConfig from config.go.  The Go maps hold pointers to these
records; nil entries are not modelled (the embedded configurations carry a
record for every listed provider). -/
structure ProviderConfig where
  enabled : Bool
  rateLimit : Int
  priority : Int
  models : List String
deriving DecidableEq, Repr

/-- Config from config.go.  The roles and providers maps are nil-able in
Go (a decoded document may leave them absent), so they are embedded as
Option of an association list; Defaults is a nil-able pointer. -/
structure Config where
  version : Int
  roles : Option (List (String × RoleConfig))
  defaults : Option DefaultConfig
  providers : Option (List (String × ProviderConfig))

/-- CurrentConfigVersion from config.go. -/
def CurrentConfigVersion : Int := 1

/-- Go map read m[k]: first binding of the key, none when absent. -/
def findAssoc {β : Type} : List (String × β) → String → Option β
  | [], _ => none
  | (k2, v) :: rest, k => if k2 = k then some v else findAssoc rest k

/-- Go map write m[k] = v: replace the binding in place, or append a new
binding (insertion order) when the key is absent. -/
def setAssoc {β : Type} : List (String × β) → String → β → List (String × β)
  | [], k, v => [(k, v)]
  | (k2, v2) :: rest, k, v =>
    if k2 = k then (k2, v) :: rest else (k2, v2) :: setAssoc rest k v

/-- Iterating a nil-able Go map: a nil map yields no entries. -/
def optList {α : Type} : Option (List α) → List α
  | none => []
  | some l => l

/-- GetModelForRole from config.go: role model when configured and
nonempty, else the default model when present and nonempty, else "auto". -/
def Config.getModelForRole (c : Config) (role : String) : String :=
  let fromRole :=
    match findAssoc (optList c.roles) role with
    | some rc => if rc.model ≠ "" then some rc.model else none
    | none => none
  match fromRole with
  | some m => m
  | none =>
    match c.defaults with
    | some d => if d.model ≠ "" then d.model else "auto"
    | none => "auto"

/-- GetFallbackChain from config.go: the role's fallback list when
nonempty, else the defaults' fallback list (empty when no defaults). -/
def Config.getFallbackChain (c : Config) (role : String) : List String :=
  match findAssoc (optList c.roles) role with
  | some rc =>
    if rc.fallback ≠ [] then rc.fallback
    else match c.defaults with
      | some d => d.fallback
      | none => []
  | none =>
    match c.defaults with
    | some d => d.fallback
    | none => []

/-- GetRationale from config.go. -/
def Config.getRationale (c : Config) (role : String) : String :=
  match findAssoc (optList c.roles) role with
  | some rc => rc.rationale
  | none => ""

/-- SupportsComplexityRouting from config.go: the flag is set and a
complexity triple is present. -/
def Config.supportsComplexityRouting (c : Config) (role : String) : Bool :=
  match findAssoc (optList c.roles) role with
  | some rc => rc.complexityRouting && rc.complexity.isSome
  | none => false

/-- GetModelForComplexity from config.go: the tier's model when complexity
routing is configured and the tier's entry is nonempty, else the flat role
model. -/
def Config.getModelForComplexity (c : Config) (role : String)
    (complexity : ComplexityLevel) : String :=
  match findAssoc (optList c.roles) role with
  | none => c.getModelForRole role
  | some rc =>
    if rc.complexityRouting = false then c.getModelForRole role
    else match rc.complexity with
      | none => c.getModelForRole role
      | some cc =>
        let tier :=
          match complexity with
          | .high => cc.high
          | .medium => cc.medium
          | .low => cc.low
        if tier ≠ "" then tier else c.getModelForRole role

/-- hasPrefix from router.go restricted to one candidate: the byte-length
guard plus equality of the leading slice is exactly a prefix test, taken
here on the character list (equivalent on UTF-8 text). -/
def strStartsWith (s p : String) : Bool :=
  List.isPrefixOf p.data s.data

/-- hasPrefix from router.go lines 290-297: any of the candidate prefixes
matches. -/
def strStartsWithAny (s : String) (ps : List String) : Bool :=
  ps.any (fun p => strStartsWith s p)

/-- ModelProvider from router.go lines 236-249: pure provider inference
from the model identifier by prefix families. -/
def ModelProvider (model : String) : String :=
  if strStartsWithAny model ["opus-", "sonnet-", "haiku-", "claude-"] then "anthropic"
  else if strStartsWithAny model ["gpt-", "o4-"] then "openai"
  else if strStartsWithAny model ["gemini-"] then "google"
  else if model = "grok" then "xai"
  else "unknown"

/-- Router from router.go: the configuration plus the provider status
map. -/
structure Router where
  config : Config
  providerStatus : List (String × Bool)

/-- NewRouter from router.go lines 19-39 (with a non-nil configuration
whose provider entries are non-nil): status of every configured provider
is its Enabled flag. -/
def newRouter (config : Config) : Router :=
  { config := config
    providerStatus :=
      (optList config.providers).map (fun pc => (pc.1, pc.2.enabled)) }

/-- RouteRequest from router.go. -/
structure RouteRequest where
  role : String
  task : Option TaskInfo
  preferredModel : String
  excludeProviders : List String

/-- RouteResult from router.go. -/
structure RouteResult where
  model : String
  provider : String
  rationale : String
  complexity : ComplexityLevel
  fallback : Bool
  fallbackReason : String
deriving DecidableEq, Repr

/-- The zero RouteResult the Go code starts from (complexity zero value is
ComplexityLow). -/
def emptyRouteResult : RouteResult :=
  { model := "", provider := "", rationale := "", complexity := .low
    fallback := false, fallbackReason := "" }

/-- isModelAvailable from router.go lines 218-232: false when the model's
inferred provider is excluded or has a recorded false status; true
otherwise (unknown providers count as available). -/
def Router.isModelAvailable (r : Router) (model : String)
    (excludeProviders : List String) : Bool :=
  let provider := ModelProvider model
  if excludeProviders.contains provider then false
  else
    match findAssoc r.providerStatus provider with
    | some st => st
    | none => true

/-- The model chosen for the role in Route step 3 (router.go lines
117-128), before availability checks. -/
def Router.roleSelectedModel (r : Router) (req : RouteRequest) : String :=
  if r.config.supportsComplexityRouting req.role then
    r.config.getModelForComplexity req.role (assessComplexity req.task)
  else
    r.config.getModelForRole req.role

/-- The rationale attached in Route step 3 (router.go lines 117-128). -/
def Router.selectedRationale (r : Router) (req : RouteRequest) : String :=
  if r.config.supportsComplexityRouting req.role then
    "Complexity-based routing: " ++ (assessComplexity req.task).toStr ++ " task"
  else
    let rat := r.config.getRationale req.role
    if rat = "" then "Role-based model selection" else rat

/-- The fallback-chain walk of Route (router.go lines 138-149): first
available model of the chain, none when the walk is exhausted. -/
def tryFallbackChain (r : Router) (exclude : List String) :
    List String → Option String
  | [] => none
  | fb :: rest =>
    if r.isModelAvailable fb exclude then some fb
    else tryFallbackChain r exclude rest

/-- The emergency scan of Route (router.go lines 152-163): walk the
providers in configuration order, skip excluded providers and providers
without a recorded true status, and return the first provider together
with its first advertised model; providers advertising no model fall
through. -/
def emergencyScanList (status : List (String × Bool)) (exclude : List String) :
    List (String × ProviderConfig) → Option (String × String)
  | [] => none
  | (p, pc) :: rest =>
    if ¬ (findAssoc status p = some true) ∨ exclude.contains p then
      emergencyScanList status exclude rest
    else
      match pc.models with
      | [] => emergencyScanList status exclude rest
      | m :: _ => some (p, m)

/-- The emergency scan applied to the router's own providers. -/
def Router.emergencyScan (r : Router) (exclude : List String) :
    Option (String × String) :=
  emergencyScanList r.providerStatus exclude (optList r.config.providers)

/-- Route steps 2-6 (router.go lines 114-165), entered after the
preferred-model override has been handled; result carries any fallback
marking left by an unavailable override. -/
def Router.routeAfterOverride (r : Router) (req : RouteRequest)
    (result : RouteResult) : Except String RouteResult :=
  let complexity := assessComplexity req.task
  let model := r.roleSelectedModel req
  let result := { result with complexity := complexity
                              rationale := r.selectedRationale req }
  if r.isModelAvailable model req.excludeProviders then
    .ok { result with model := model, provider := ModelProvider model }
  else
    match tryFallbackChain r req.excludeProviders (r.config.getFallbackChain req.role) with
    | some fb =>
      .ok { result with
              model := fb, provider := ModelProvider fb, fallback := true
              fallbackReason :=
                if result.fallbackReason = "" then
                  "Primary model " ++ model ++ " unavailable"
                else result.fallbackReason }
    | none =>
      match r.emergencyScan req.excludeProviders with
      | some (p, m) =>
        .ok { result with
                model := m, provider := p, fallback := true
                fallbackReason :=
                  "All preferred models unavailable, using emergency fallback" }
      | none => .error ("no available models for role " ++ req.role)

/-- Route from router.go lines 96-166: preferred-model override first,
then complexity assessment, role selection, fallback chain and emergency
scan. -/
def Router.route (r : Router) (req : RouteRequest) : Except String RouteResult :=
  if req.preferredModel ≠ "" ∧ req.preferredModel ≠ "auto" then
    if r.isModelAvailable req.preferredModel req.excludeProviders then
      .ok { emptyRouteResult with
              model := req.preferredModel
              provider := ModelProvider req.preferredModel
              rationale := "User-specified model preference" }
    else
      r.routeAfterOverride req
        { emptyRouteResult with
            fallback := true
            fallbackReason :=
              "Preferred model " ++ req.preferredModel ++ " unavailable" }
  else
    r.routeAfterOverride req emptyRouteResult

/-- CircuitBreaker from router.go lines 361-382.  The state is the Go
string field ("closed", "open" or "half-open"); timestamps and the reset
timeout are Unix nanoseconds as Int. -/
structure CircuitBreaker where
  state : String
  failureCount : Int
  lastFailure : Int
  lastSuccess : Int
  openedAt : Int
  threshold : Int
  resetTimeout : Int
deriving DecidableEq, Repr

/-- The per-breaker action of recordFailure (router.go lines 481-499):
increment the consecutive-failure count, stamp the failure time, and open
the circuit when a closed breaker has reached its threshold. -/
def cbRecordFailure (now : Int) (cb : CircuitBreaker) : CircuitBreaker :=
  let cb := { cb with failureCount := cb.failureCount + 1, lastFailure := now }
  if cb.state = "closed" ∧ cb.failureCount ≥ cb.threshold then
    { cb with state := "open", openedAt := now }
  else cb

/-- The per-breaker action of recordSuccess (router.go lines 502-522):
stamp the success time; close a half-open breaker; reset the failure count
of a closed (or newly closed) breaker. -/
def cbRecordSuccess (now : Int) (cb : CircuitBreaker) : CircuitBreaker :=
  let cb := { cb with lastSuccess := now }
  if cb.state = "half-open" then
    { cb with state := "closed", failureCount := 0 }
  else if cb.state = "closed" then
    { cb with failureCount := 0 }
  else cb

/-- The per-breaker promotion test of MaybeRecover's sweep (router.go
lines 557-563): an open breaker whose reset timeout has strictly elapsed
becomes half-open. -/
def cbMaybeRecoverSweep (now : Int) (cb : CircuitBreaker) : CircuitBreaker :=
  if cb.state = "open" ∧ now - cb.openedAt > cb.resetTimeout then
    { cb with state := "half-open" }
  else cb

/-- A sequence of consecutive failures recorded at the given times, oldest
first. -/
def applyFailures (cb : CircuitBreaker) (ts : List Int) : CircuitBreaker :=
  ts.foldl (fun c t => cbRecordFailure t c) cb

/-- FallbackManager state from router.go lines 350-358: the wrapped
router's provider status map, the per-provider circuit breakers and the
per-provider rate-limit windows (hit timestamps). -/
structure FallbackManager where
  routerStatus : List (String × Bool)
  circuitBreaker : List (String × CircuitBreaker)
  failureWindow : List (String × List Int)

/-- One minute in nanoseconds (time.Minute). -/
def minuteNs : Int := 60000000000

/-- recordFailure from router.go lines 481-499 at manager level: look up
the provider's breaker (no-op when absent), apply the per-breaker failure
action, and mark the provider unavailable on the router when the breaker
transitions closed to open. -/
def fmRecordFailure (fm : FallbackManager) (provider : String) (now : Int) :
    FallbackManager :=
  match findAssoc fm.circuitBreaker provider with
  | none => fm
  | some cb =>
    let newCb := cbRecordFailure now cb
    { fm with
        circuitBreaker := setAssoc fm.circuitBreaker provider newCb
        routerStatus :=
          if cb.state = "closed" ∧ newCb.state = "open" then
            setAssoc fm.routerStatus provider false
          else fm.routerStatus }

/-- recordSuccess from router.go lines 502-522 at manager level: apply the
per-breaker success action and mark the provider available on the router
when a half-open breaker closes. -/
def fmRecordSuccess (fm : FallbackManager) (provider : String) (now : Int) :
    FallbackManager :=
  match findAssoc fm.circuitBreaker provider with
  | none => fm
  | some cb =>
    let newCb := cbRecordSuccess now cb
    { fm with
        circuitBreaker := setAssoc fm.circuitBreaker provider newCb
        routerStatus :=
          if cb.state = "half-open" then setAssoc fm.routerStatus provider true
          else fm.routerStatus }

/-- recordRateLimit from router.go lines 525-552: append the hit to the
provider's window, drop entries older than one minute, and open a closed
breaker when five or more hits remain in the window. -/
def fmRecordRateLimit (fm : FallbackManager) (provider : String) (now : Int) :
    FallbackManager :=
  let window := (optList (findAssoc fm.failureWindow provider)) ++ [now]
  let recent := window.filter (fun t => t > now - minuteNs)
  let fm := { fm with failureWindow := setAssoc fm.failureWindow provider recent }
  if recent.length ≥ 5 then
    match findAssoc fm.circuitBreaker provider with
    | none => fm
    | some cb =>
      if cb.state = "closed" then
        { fm with
            circuitBreaker :=
              setAssoc fm.circuitBreaker provider
                { cb with state := "open", openedAt := now }
            routerStatus := setAssoc fm.routerStatus provider false }
      else fm
  else fm

/-- The membership helper contains from router.go lines 280-287, as the
source applies it in isRateLimitError: exact equality of a slice element
with the item. -/
def goContains (slice : List String) (item : String) : Bool :=
  slice.contains item

/-- isRateLimitError from router.go lines 648-656.  The source passes the
single-element slice holding the error text to contains with the marker as
the item, so the check is exact string equality against the three
markers (not substring search); the embedding reproduces that behavior.
A nil error is not a rate-limit error. -/
def isRateLimitError : Option String → Bool
  | none => false
  | some errStr =>
    goContains [errStr] "rate limit" || goContains [errStr] "429"
      || goContains [errStr] "too many requests"

/-- RecordRequestOutcome from router.go lines 634-645: success goes to the
success path; a rate-limit-classified error goes to the rate-limit path;
any other failure goes to the failure path. -/
def fmRecordRequestOutcome (fm : FallbackManager) (provider : String)
    (success : Bool) (err : Option String) (now : Int) : FallbackManager :=
  if success then fmRecordSuccess fm provider now
  else if isRateLimitError err then fmRecordRateLimit fm provider now
  else fmRecordFailure fm provider now

/-- ModelResponse from patterns.go lines 99-108.  Duration is Go
time.Duration as Int nanoseconds; cost and confidence are float64 as Q. -/
structure ModelResponse where
  model : String
  output : String
  duration : Int
  tokens : Int
  cost : ℚ
  success : Bool
  error : String
  confidence : ℚ
deriving DecidableEq, Repr

/-- The zero ModelResponse (Go ModelResponse zero value). -/
def emptyModelResponse : ModelResponse :=
  { model := "", output := "", duration := 0, tokens := 0, cost := 0
    success := false, error := "", confidence := 0 }

/-- ChainStep from patterns.go lines 46-61. -/
structure ChainStep where
  name : String
  model : String
  role : String
  prompt : String
  transformOutput : String
deriving DecidableEq, Repr

/-- ChainConfig from patterns.go lines 34-43. -/
structure ChainConfig where
  steps : List ChainStep
  passContext : Bool
  stopOnError : Bool
deriving DecidableEq, Repr

/-- StepResult from patterns.go lines 121-129 (the wall-clock duration
field is not modelled). -/
structure StepResult where
  name : String
  model : String
  input : String
  output : String
  success : Bool
  error : String
deriving DecidableEq, Repr

/-- ChainResult from patterns.go lines 111-118 (the wall-clock total
duration field is not modelled). -/
structure ChainResult where
  steps : List StepResult
  finalOutput : String
  totalCost : ℚ
  success : Bool
  error : String
deriving DecidableEq, Repr

/-- The literal substitution token of chain prompts (two opening braces,
the word input, two closing braces). -/
def inputToken : String := "\x7b\x7binput\x7d\x7d"

/-- Prompt construction of a chain step (patterns.go lines 178-185): use
the current input verbatim when the template is empty, else substitute
every occurrence of the input token. -/
def buildPrompt (stepPrompt currentInput : String) : String :=
  if stepPrompt = "" then currentInput
  else stepPrompt.replace inputToken currentInput

/-- Loop state of extractCodeBlocks (patterns.go lines 258-281): walk the
lines, toggling on fence lines, collecting fenced lines into the current
block and closing blocks on the closing fence. -/
def extractCodeBlocksLoop : List String → Bool → List String → List String → List String
  | [], _, blocks, _ => blocks
  | line :: rest, inBlock, blocks, current =>
    if line.startsWith "```" then
      if inBlock then
        extractCodeBlocksLoop rest false
          (blocks ++ [String.intercalate "\n" current]) []
      else
        extractCodeBlocksLoop rest true blocks current
    else if inBlock then
      extractCodeBlocksLoop rest inBlock blocks (current ++ [line])
    else
      extractCodeBlocksLoop rest inBlock blocks current

/-- extractCodeBlocks from patterns.go lines 258-281: concatenate the
contents of fenced code blocks, blocks separated by a blank line. -/
def extractCodeBlocks (s : String) : String :=
  String.intercalate "\n\n" (extractCodeBlocksLoop (s.splitOn "\n") false [] [])

/-- applyTransform from patterns.go lines 239-255: extract_code,
first_line, trim, and identity for anything else. -/
def applyTransform (output transform : String) : String :=
  if transform = "extract_code" then extractCodeBlocks output
  else if transform = "first_line" then
    (if (output.splitOn "\n").length > 1 then
      (output.splitOn "\n").headD output
     else output)
  else if transform = "trim" then output.trim
  else output

/-- The next chain input derived from a successful step's response
(patterns.go lines 215-220): the transformed output when a transform name
is set, the raw output otherwise. -/
def stepNextInput (step : ChainStep) (response : ModelResponse) : String :=
  if step.transformOutput ≠ "" then
    applyTransform response.output step.transformOutput
  else response.output

/-- Loop of ChainExecutor.Execute (patterns.go lines 163-236).  The
abstract execution capability is a pure function from model and prompt to
a response or a transport error; idx counts completed steps so the
stop-on-error message can name the failing step.  On a transport error the
step is recorded as failed and, without stopOnError, the loop continues
with the current input unchanged; on a response the step records the
response's success, the cost accumulates and the (possibly transformed)
output becomes the next input.  The final result is successful only when
every recorded step succeeded. -/
def chainExecuteLoop (exec : String → String → Except String ModelResponse)
    (stopOnError : Bool) :
    List ChainStep → Nat → String → List StepResult → ℚ → ChainResult
  | [], _, currentInput, accSteps, accCost =>
    { steps := accSteps, finalOutput := currentInput, totalCost := accCost
      success := !(accSteps.any (fun s => !s.success)), error := "" }
  | step :: rest, idx, currentInput, accSteps, accCost =>
    let prompt := buildPrompt step.prompt currentInput
    match exec step.model prompt with
    | .error e =>
      let sr : StepResult :=
        { name := step.name, model := step.model, input := currentInput
          output := "", success := false, error := e }
      if stopOnError then
        { steps := accSteps ++ [sr], finalOutput := "", totalCost := accCost
          success := false
          error := "step " ++ toString (idx + 1) ++ " (" ++ step.name
            ++ ") failed: " ++ e }
      else
        chainExecuteLoop exec stopOnError rest (idx + 1) currentInput
          (accSteps ++ [sr]) accCost
    | .ok response =>
      let sr : StepResult :=
        { name := step.name, model := step.model, input := currentInput
          output := response.output, success := response.success
          error := if response.success then "" else response.error }
      chainExecuteLoop exec stopOnError rest (idx + 1)
        (stepNextInput step response) (accSteps ++ [sr])
        (accCost + response.cost)

/-- ChainExecutor.Execute from patterns.go lines 163-236. -/
def chainExecute (exec : String → String → Except String ModelResponse)
    (cfg : ChainConfig) (initialInput : String) : ChainResult :=
  chainExecuteLoop exec cfg.stopOnError cfg.steps 0 initialInput [] 0

/-- TrimPrefix of the Go strings package: drop the prefix when present. -/
def trimPre (s p : String) : String :=
  if strStartsWith s p then String.mk (s.data.drop p.data.length) else s

/-- strings.ToLower on the character list (simple case mapping; the
embedded texts are ASCII). -/
def strToLower (s : String) : String :=
  String.mk (s.data.map Char.toLower)

/-- strings.Fields on the character list: maximal runs of non-whitespace
characters, whitespace runs acting as separators. -/
def fieldsAux : List Char → List Char → List (List Char)
  | [], cur => if cur.isEmpty then [] else [cur.reverse]
  | c :: rest, cur =>
    if c.isWhitespace then
      if cur.isEmpty then fieldsAux rest []
      else cur.reverse :: fieldsAux rest []
    else fieldsAux rest (c :: cur)

/-- strings.Fields of a string. -/
def fieldsOf (s : String) : List String :=
  (fieldsAux s.data []).map String.mk

/-- strings.TrimSpace on the character list: drop whitespace from both
ends. -/
def trimStr (s : String) : String :=
  String.mk
    (((s.data.dropWhile (fun c => c.isWhitespace)).reverse.dropWhile
      (fun c => c.isWhitespace)).reverse)

/-- normalizeOutput from patterns.go lines 584-601: lower-case, collapse
whitespace runs to single spaces, strip the listed filler openers once
each in order, and trim. -/
def normalizeOutput (s : String) : String :=
  let s := strToLower s
  let s := String.intercalate " " (fieldsOf s)
  let ps := ["here is", "here's", "the answer is", "i think",
             "based on", "let me", "sure,", "certainly,"]
  let s := ps.foldl (fun acc p => trimPre acc p) s
  trimStr s

/-- The normalized output of a response, the grouping key of every voting
strategy. -/
def normKey (r : ModelResponse) : String := normalizeOutput r.output

/-- The successful responses, in arrival order (every voting strategy
skips unsuccessful responses). -/
def successResponses (l : List ModelResponse) : List ModelResponse :=
  l.filter (fun r => r.success)

/-- The distinct normalized outputs of the successful responses, in first
arrival order: the key set of the Go counting maps, iterated in insertion
order. -/
def voteKeys (l : List ModelResponse) : List String :=
  ((successResponses l).map normKey).dedup

/-- The group a counting map associates with a key: the successful
responses with that normalized output, in arrival order. -/
def groupFor (l : List ModelResponse) (k : String) : List ModelResponse :=
  (successResponses l).filter (fun r => normKey r = k)

/-- The max-finding loop the voting functions run over their maps: keep
the first key whose value strictly exceeds the best so far, starting from
the empty key and a zero best. -/
def argmaxFold {α : Type} [LinearOrder α] (f : String → α) (init : String × α)
    (keys : List String) : String × α :=
  keys.foldl (fun acc k => if f k > acc.2 then (k, f k) else acc) init

/-- voteMajority from patterns.go lines 401-435: group successful
responses by normalized output, find the largest group (empty winning key
means no successful response won and yields the zero response with
agreement 0), and return the group's first response with agreement
group size over successful count. -/
def voteMajority (l : List ModelResponse) : ModelResponse × ℚ :=
  let am := argmaxFold (fun k => (groupFor l k).length) ("", 0) (voteKeys l)
  if am.1 = "" then (emptyModelResponse, 0)
  else
    let successCount := (successResponses l).length
    ((groupFor l am.1).headD emptyModelResponse,
      (am.2 : ℚ) / (successCount : ℚ))

/-- The scan of voteConsensus (patterns.go lines 438-455): remember the
first nonempty normalized output and its response, and clear the
all-agree flag whenever a later successful response normalizes
differently. -/
def consensusScan : List ModelResponse → String → ModelResponse → Bool →
    String × ModelResponse × Bool
  | [], fo, fr, aa => (fo, fr, aa)
  | r :: rest, fo, fr, aa =>
    if !r.success then consensusScan rest fo fr aa
    else if fo = "" then consensusScan rest (normKey r) r aa
    else if normKey r ≠ fo then consensusScan rest fo fr false
    else consensusScan rest fo fr aa

/-- voteConsensus from patterns.go lines 438-463: agreement 1 with the
remembered response when the scan saw a nonempty output and no
disagreement; otherwise fall back to majority voting. -/
def voteConsensus (l : List ModelResponse) : ModelResponse × ℚ :=
  let scan := consensusScan l "" emptyModelResponse true
  if scan.2.2 ∧ scan.1 ≠ "" then (scan.2.1, 1) else voteMajority l

/-- The confidence a response contributes in weighted voting (patterns.go
lines 476-479): one half when the recorded confidence is zero. -/
def effectiveConfidence (r : ModelResponse) : ℚ :=
  if r.confidence = 0 then 1/2 else r.confidence

/-- The weight a key's group accumulates in voteWeighted. -/
def weightFor (l : List ModelResponse) (k : String) : ℚ :=
  ((groupFor l k).map effectiveConfidence).sum

/-- voteWeighted from patterns.go lines 466-502: group successful
responses by normalized output with confidence-summed weights, find the
heaviest group (empty winning key yields the zero response with agreement
0), and return its first response with agreement max weight over total
weight. -/
def voteWeighted (l : List ModelResponse) : ModelResponse × ℚ :=
  let keys := voteKeys l
  let totalWeight := (keys.map (weightFor l)).sum
  let am := argmaxFold (weightFor l) ("", 0) keys
  if am.1 = "" then (emptyModelResponse, 0)
  else ((groupFor l am.1).headD emptyModelResponse, am.2 / totalWeight)

/-- Every successful response normalizes to the same output (the premise
of the consensus claim). -/
def allSuccessfulAgree (l : List ModelResponse) : Prop :=
  ∀ r1 ∈ successResponses l, ∀ r2 ∈ successResponses l, normKey r1 = normKey r2

instance (l : List ModelResponse) : Decidable (allSuccessfulAgree l) := by
  unfold allSuccessfulAgree
  exact inferInstance

/-- The size of the largest normalized-output group. -/
def maxGroupSize (l : List ModelResponse) : Nat :=
  ((voteKeys l).map (fun k => (groupFor l k).length)).foldl max 0

/-- TaskMetric from metrics.go lines 73-87. -/
structure TaskMetric where
  id : String
  role : String
  model : String
  provider : String
  startedAt : Int
  completedAt : Int
  duration : Int
  tokens : Int
  cost : ℚ
  success : Bool
  error : String
  complexity : String
  fallback : Bool
deriving DecidableEq, Repr

/-- RoleMetrics from metrics.go lines 32-43. -/
structure RoleMetrics where
  role : String
  totalTasks : Int
  completedTasks : Int
  failedTasks : Int
  totalDuration : Int
  totalTokens : Int
  totalCost : ℚ
  modelUsage : List (String × Int)
  avgDuration : Int
  successRate : ℚ
deriving DecidableEq, Repr

/-- ModelMetrics from metrics.go lines 46-58. -/
structure ModelMetrics where
  model : String
  provider : String
  totalTasks : Int
  completedTasks : Int
  failedTasks : Int
  totalDuration : Int
  totalTokens : Int
  totalCost : ℚ
  avgDuration : Int
  successRate : ℚ
  roleUsage : List (String × Int)
deriving DecidableEq, Repr

/-- ProviderMetrics from metrics.go lines 61-70. -/
structure ProviderMetrics where
  provider : String
  totalTasks : Int
  completedTasks : Int
  failedTasks : Int
  totalCost : ℚ
  rateLimitHits : Int
  avgLatency : Int
  availability : ℚ
deriving DecidableEq, Repr

/-- Metrics from metrics.go lines 22-29.  The three aggregate maps are
embedded as association lists; RecordTask re-creates them when nil, and
no embedded reader distinguishes nil from empty, so they are plain
lists. -/
structure Metrics where
  version : Int
  updatedAt : Int
  byRole : List (String × RoleMetrics)
  byModel : List (String × ModelMetrics)
  byProvider : List (String × ProviderMetrics)
  taskHistory : List TaskMetric
deriving DecidableEq, Repr

/-- CurrentMetricsVersion from metrics.go. -/
def CurrentMetricsVersion : Int := 1

/-- MaxTaskHistory from metrics.go. -/
def MaxTaskHistory : Nat := 1000

/-- The fresh Metrics value NewMetricsStore builds (metrics.go lines
104-109): empty aggregates and history. -/
def emptyMetrics : Metrics :=
  { version := CurrentMetricsVersion, updatedAt := 0
    byRole := [], byModel := [], byProvider := [], taskHistory := [] }

/-- Go counter-map increment m[k]++: zero default, so a missing key
becomes one. -/
def incAssoc (l : List (String × Int)) (k : String) : List (String × Int) :=
  match findAssoc l k with
  | some v => setAssoc l k (v + 1)
  | none => setAssoc l k 1

/-- The fresh RoleMetrics RecordTask creates for an unseen role
(metrics.go lines 180-184). -/
def newRoleMetrics (role : String) : RoleMetrics :=
  { role := role, totalTasks := 0, completedTasks := 0, failedTasks := 0
    totalDuration := 0, totalTokens := 0, totalCost := 0, modelUsage := []
    avgDuration := 0, successRate := 0 }

/-- The fresh ModelMetrics RecordTask creates for an unseen model
(metrics.go lines 204-208). -/
def newModelMetrics (model provider : String) : ModelMetrics :=
  { model := model, provider := provider, totalTasks := 0
    completedTasks := 0, failedTasks := 0, totalDuration := 0
    totalTokens := 0, totalCost := 0, avgDuration := 0, successRate := 0
    roleUsage := [] }

/-- The fresh ProviderMetrics RecordTask creates for an unseen provider
(metrics.go lines 229-231). -/
def newProviderMetrics (provider : String) : ProviderMetrics :=
  { provider := provider, totalTasks := 0, completedTasks := 0
    failedTasks := 0, totalCost := 0, rateLimitHits := 0, avgLatency := 0
    availability := 0 }

/-- RecordTask from metrics.go lines 162-258 (the atomic save to disk is
external I/O): update the role, model and provider aggregates with the
task's counts, duration, tokens and cost, recompute the running average
duration and success rate, append the task to the capped history and stamp
the update time. -/
def recordTask (m : Metrics) (task : TaskMetric) (now : Int) : Metrics :=
  let rm := (findAssoc m.byRole task.role).getD (newRoleMetrics task.role)
  let rm := { rm with
                totalTasks := rm.totalTasks + 1
                completedTasks := rm.completedTasks + (if task.success then 1 else 0)
                failedTasks := rm.failedTasks + (if task.success then 0 else 1)
                totalDuration := rm.totalDuration + task.duration
                totalTokens := rm.totalTokens + task.tokens
                totalCost := rm.totalCost + task.cost
                modelUsage := incAssoc rm.modelUsage task.model }
  let rm := { rm with
                avgDuration := rm.totalDuration / rm.totalTasks
                successRate :=
                  if rm.totalTasks > 0 then
                    (rm.completedTasks : ℚ) / (rm.totalTasks : ℚ)
                  else rm.successRate }
  let mm := (findAssoc m.byModel task.model).getD
    (newModelMetrics task.model task.provider)
  let mm := { mm with
                totalTasks := mm.totalTasks + 1
                completedTasks := mm.completedTasks + (if task.success then 1 else 0)
                failedTasks := mm.failedTasks + (if task.success then 0 else 1)
                totalDuration := mm.totalDuration + task.duration
                totalTokens := mm.totalTokens + task.tokens
                totalCost := mm.totalCost + task.cost
                roleUsage := incAssoc mm.roleUsage task.role }
  let mm := { mm with
                avgDuration := mm.totalDuration / mm.totalTasks
                successRate :=
                  if mm.totalTasks > 0 then
                    (mm.completedTasks : ℚ) / (mm.totalTasks : ℚ)
                  else mm.successRate }
  let pm := (findAssoc m.byProvider task.provider).getD
    (newProviderMetrics task.provider)
  let pm := { pm with
                totalTasks := pm.totalTasks + 1
                completedTasks := pm.completedTasks + (if task.success then 1 else 0)
                failedTasks := pm.failedTasks + (if task.success then 0 else 1)
                totalCost := pm.totalCost + task.cost }
  let pm := { pm with
                availability :=
                  if pm.totalTasks > 0 then
                    (pm.completedTasks : ℚ) / (pm.totalTasks : ℚ)
                  else pm.availability }
  let hist := m.taskHistory ++ [task]
  let hist :=
    if hist.length > MaxTaskHistory then hist.drop (hist.length - MaxTaskHistory)
    else hist
  { m with
      byRole := setAssoc m.byRole task.role rm
      byModel := setAssoc m.byModel task.model mm
      byProvider := setAssoc m.byProvider task.provider pm
      taskHistory := hist
      updatedAt := now }

/-- RecordRateLimit from metrics.go lines 261-282. -/
def recordRateLimit (m : Metrics) (provider : String) (now : Int) : Metrics :=
  let pm := (findAssoc m.byProvider provider).getD (newProviderMetrics provider)
  { m with
      byProvider :=
        setAssoc m.byProvider provider
          { pm with rateLimitHits := pm.rateLimitHits + 1 }
      updatedAt := now }

/-- GetRoleMetrics from metrics.go lines 303-307: the stored aggregate for
the role (a nil pointer when the role is unseen). -/
def getRoleMetrics (m : Metrics) (role : String) : Option RoleMetrics :=
  findAssoc m.byRole role

/-- GetModelMetrics from metrics.go lines 310-314. -/
def getModelMetrics (m : Metrics) (model : String) : Option ModelMetrics :=
  findAssoc m.byModel model

/-- GetProviderMetrics from metrics.go lines 317-321. -/
def getProviderMetrics (m : Metrics) (provider : String) : Option ProviderMetrics :=
  findAssoc m.byProvider provider

/-- GetMetrics from metrics.go lines 285-300: a deep copy of the whole
Metrics value via a JSON round trip, sharing no pointer with the store. -/
def getMetrics (m : Metrics) : Metrics := m

/-- Models a caller assigning to fields of the RoleMetrics pointer that
GetRoleMetrics returned.  The source returns s.metrics.ByRole[role]
without copying, so the pointer aliases the store's map entry and the
caller's write lands in the store; a nil return gives the caller nothing
to write through. -/
def writeThroughRoleAlias (m : Metrics) (role : String)
    (f : RoleMetrics → RoleMetrics) : Metrics :=
  match findAssoc m.byRole role with
  | none => m
  | some rm => { m with byRole := setAssoc m.byRole role (f rm) }

/-- Models a caller assigning through the ModelMetrics pointer that
GetModelMetrics returned (aliasing as for writeThroughRoleAlias). -/
def writeThroughModelAlias (m : Metrics) (model : String)
    (f : ModelMetrics → ModelMetrics) : Metrics :=
  match findAssoc m.byModel model with
  | none => m
  | some mm => { m with byModel := setAssoc m.byModel model (f mm) }

/-- Models a caller assigning through the ProviderMetrics pointer that
GetProviderMetrics returned (aliasing as for writeThroughRoleAlias). -/
def writeThroughProviderAlias (m : Metrics) (provider : String)
    (f : ProviderMetrics → ProviderMetrics) : Metrics :=
  match findAssoc m.byProvider provider with
  | none => m
  | some pm => { m with byProvider := setAssoc m.byProvider provider (f pm) }

/-- Summary from metrics.go lines 341-349. -/
structure Summary where
  totalTasks : Int
  completedTasks : Int
  totalCost : ℚ
  avgSuccessRate : ℚ
  topModel : String
  topProvider : String
  costSavings : ℚ
deriving DecidableEq, Repr

/-- GetSummary from metrics.go lines 352-398: role-aggregate totals, the
blended success rate, the highest-task-count model and provider, and the
cost savings against the flagship per-token baseline. -/
def getSummary (m : Metrics) : Summary :=
  let s : Summary :=
    { totalTasks := 0, completedTasks := 0, totalCost := 0
      avgSuccessRate := 0, topModel := "", topProvider := ""
      costSavings := 0 }
  let s := m.byRole.foldl
    (fun s x =>
      { s with
          totalTasks := s.totalTasks + x.2.totalTasks
          completedTasks := s.completedTasks + x.2.completedTasks
          totalCost := s.totalCost + x.2.totalCost }) s
  let s :=
    if s.totalTasks > 0 then
      { s with avgSuccessRate := (s.completedTasks : ℚ) / (s.totalTasks : ℚ) }
    else s
  let tm := m.byModel.foldl
    (fun acc x => if x.2.totalTasks > acc.2 then (x.1, x.2.totalTasks) else acc)
    ("", 0)
  let tp := m.byProvider.foldl
    (fun acc x => if x.2.totalTasks > acc.2 then (x.1, x.2.totalTasks) else acc)
    ("", 0)
  let s := { s with topModel := tm.1, topProvider := tp.1 }
  let opusRate : ℚ := 75 / 1000
  let estimatedOpusCost := m.byRole.foldl
    (fun acc x => acc + (x.2.totalTokens : ℚ) * opusRate / 1000000) 0
  if estimatedOpusCost > 0 then
    { s with costSavings := (1 - s.totalCost / estimatedOpusCost) * 100 }
  else s

/-- LoadConfig's post-decode normalization (config.go lines 209-217),
applied to the decoded document: default an absent version to the current
one and an absent (nil) roles map to an empty map.  Reading the file and
decoding TOML or JSON are external; an absent top-level map decodes to a
nil map, embedded as none. -/
def loadConfigApplyDefaults (config : Config) : Config :=
  let config :=
    if config.version = 0 then { config with version := CurrentConfigVersion }
    else config
  if config.roles.isNone then { config with roles := some [] } else config

/-- The candidate test of the emergency scan, phrased from the claim: an
enabled (recorded-true status), non-excluded provider advertising at least
one model. -/
def emergencyCandidate (r : Router) (exclude : List String)
    (x : String × ProviderConfig) : Bool :=
  (findAssoc r.providerStatus x.1 == some true) && !(exclude.contains x.1)
    && !x.2.models.isEmpty

/-- A two-provider configuration whose first provider is disabled: the
role's primary and fallback models live on the disabled provider. -/
def c2Config : Config :=
  { version := 1
    roles := some [("dev",
      { model := "sonnet-4.5", fallback := ["opus-4.5"], rationale := ""
        complexityRouting := false, complexity := none, provider := "" })]
    defaults := none
    providers := some
      [("anthropic",
         { enabled := false, rateLimit := 60, priority := 100
           models := ["sonnet-4.5", "opus-4.5"] }),
       ("google",
         { enabled := true, rateLimit := 60, priority := 80
           models := ["gemini-3-flash", "gemini-3-pro"] })] }

/-- The router over c2Config. -/
def c2Router : Router := newRouter c2Config

/-- A plain request for the dev role, no override, no exclusions. -/
def c2Req : RouteRequest :=
  { role := "dev", task := none, preferredModel := "", excludeProviders := [] }

/-- A one-provider configuration whose only provider is disabled, so no
provider at all is available. -/
def c2ConfigNone : Config :=
  { version := 1
    roles := some [("dev",
      { model := "sonnet-4.5", fallback := ["opus-4.5"], rationale := ""
        complexityRouting := false, complexity := none, provider := "" })]
    defaults := none
    providers := some
      [("anthropic",
         { enabled := false, rateLimit := 60, priority := 100
           models := ["sonnet-4.5", "opus-4.5"] })] }

/-- The router over c2ConfigNone. -/
def c2RouterNone : Router := newRouter c2ConfigNone

/-- A closed breaker with threshold 2 and a 30-second reset timeout. -/
def c3Breaker : CircuitBreaker :=
  { state := "closed", failureCount := 0, lastFailure := 0, lastSuccess := 0
    openedAt := 0, threshold := 2, resetTimeout := 30000000000 }

/-- A closed breaker carrying three recorded failures. -/
def c3ClosedCb : CircuitBreaker :=
  { state := "closed", failureCount := 3, lastFailure := 2, lastSuccess := 0
    openedAt := 0, threshold := 5, resetTimeout := 30000000000 }

/-- A breaker opened at time 8 with a 30-second reset timeout. -/
def c3OpenCb : CircuitBreaker :=
  { state := "open", failureCount := 5, lastFailure := 8, lastSuccess := 0
    openedAt := 8, threshold := 5, resetTimeout := 30000000000 }

/-- A manager holding one half-open breaker for the anthropic provider. -/
def c10Fm : FallbackManager :=
  { routerStatus := [("anthropic", false)]
    circuitBreaker := [("anthropic",
      { state := "half-open", failureCount := 3, lastFailure := 5
        lastSuccess := 0, openedAt := 5, threshold := 5
        resetTimeout := 30000000000 })]
    failureWindow := [] }

/-- A pure execution capability for the chain witness: the middle model
fails with a transport error, every other model answers successfully. -/
def c4Exec : String → String → Except String ModelResponse :=
  fun model _prompt =>
    if model = "m2" then .error "boom"
    else .ok { emptyModelResponse with
                 model := model, output := "out-" ++ model
                 success := true, cost := 1 }

/-- A three-step chain with stopOnError disabled. -/
def c4Cfg : ChainConfig :=
  { steps :=
      [{ name := "draft", model := "m1", role := "", prompt := "", transformOutput := "" },
       { name := "review", model := "m2", role := "", prompt := "", transformOutput := "trim" },
       { name := "summarize", model := "m3", role := "", prompt := "", transformOutput := "" }]
    passContext := true, stopOnError := false }

/-- A successful response whose output normalizes to "a" (upper case with
trailing whitespace). -/
def respA : ModelResponse :=
  { emptyModelResponse with model := "m1", output := "A ", success := true }

/-- A successful response whose output is exactly "a". -/
def respa : ModelResponse :=
  { emptyModelResponse with model := "m2", output := "a", success := true }

/-- A successful response whose output is "b". -/
def respB : ModelResponse :=
  { emptyModelResponse with model := "m3", output := "b", success := true }

/-- A successful response whose output normalizes to the empty string. -/
def respEmpty : ModelResponse :=
  { emptyModelResponse with model := "m4", output := "", success := true }

/-- A three-response list in which the normalized output a holds a strict
majority over b. -/
def c6L : List ModelResponse := [respa, respA, respB]

/-- A permutation of c6L. -/
def c6L2 : List ModelResponse := [respB, respA, respa]

/-- A task metric for the aliasing example: role r, model m, provider p,
success, cost 2. -/
def c7Task : TaskMetric :=
  { id := "t1", role := "r", model := "m", provider := "p", startedAt := 0
    completedAt := 1, duration := 10, tokens := 100, cost := 2
    success := true, error := "", complexity := "medium", fallback := false }

/-- A successful task metric with cost 2 for the summary round trip,
parameterized over role, model, provider, duration and token count. -/
def c8Task (r m p : String) (d tok : Int) : TaskMetric :=
  { id := "", role := r, model := m, provider := p, startedAt := 0
    completedAt := 0, duration := d, tokens := tok, cost := 2
    success := true, error := "", complexity := "", fallback := false }

/-- The store state after recording c7Task on a fresh store. -/
def c7Store : Metrics := recordTask emptyMetrics c7Task 1

/-- The role aggregate the one-task store holds for role r. -/
def c7RoleAggregate : RoleMetrics :=
  { role := "r", totalTasks := 1, completedTasks := 1, failedTasks := 0
    totalDuration := 10, totalTokens := 100, totalCost := 2
    modelUsage := [("m", 1)], avgDuration := 10, successRate := 1 }

/-- The model aggregate the one-task store holds for model m. -/
def c7ModelAggregate : ModelMetrics :=
  { model := "m", provider := "p", totalTasks := 1, completedTasks := 1
    failedTasks := 0, totalDuration := 10, totalTokens := 100, totalCost := 2
    avgDuration := 10, successRate := 1, roleUsage := [("r", 1)] }

/-- The provider aggregate the one-task store holds for provider p. -/
def c7ProviderAggregate : ProviderMetrics :=
  { provider := "p", totalTasks := 1, completedTasks := 1, failedTasks := 0
    totalCost := 2, rateLimitHits := 0, avgLatency := 0, availability := 1 }

/-- A decoded configuration document that omits both the roles and the
providers maps (both nil after decoding). -/
def c9Parsed : Config :=
  { version := 1, roles := none, defaults := none, providers := none }

/-- C1: assessComplexity computes the additive score (+3/+2/+1 for
files affected crossing 10/5/2, +3/+2/+1 for lines changed crossing
500/200/50, +3 when architectural, +1 when tests are required) and maps
score ≥ 6 to high, ≥ 3 to medium, else low; with no task signal it
returns medium. -/
theorem assessComplexity_matches_spec (t : Option TaskInfo) :
    assessComplexity t = assessComplexitySpec t := by
  cases t with
  | none => rfl
  | some task =>
    obtain ⟨files, lines, arch, tests, descr⟩ := task
    have hfiles :
        (if files ≥ 10 then (3 : Int) else if files ≥ 5 then 2
         else if files ≥ 2 then 1 else 0) = filesScoreSpec files := by
      unfold filesScoreSpec
      split_ifs <;> omega
    have hlines :
        (if lines ≥ 500 then (3 : Int) else if lines ≥ 200 then 2
         else if lines ≥ 50 then 1 else 0) = linesScoreSpec lines := by
      unfold linesScoreSpec
      split_ifs <;> omega
    simp only [assessComplexity, assessComplexitySpec]
    rw [hfiles, hlines]

/-- C9 counterexample: a decoded document omitting both maps leaves the
providers map nil after LoadConfig's normalization, while the roles map is
normalized to an empty non-nil map — refuting that each missing map is
normalized. -/
theorem loadConfig_counterexample :
    (loadConfigApplyDefaults c9Parsed).roles = some [] ∧
      (loadConfigApplyDefaults c9Parsed).providers = none := by
  constructor <;> rfl

/-- C9 (amended): LoadConfig's normalization turns only a missing roles
map into an empty non-nil map and defaults a zero version; the providers
map is returned exactly as decoded, nil when it was absent. -/
theorem loadConfig_normalizes_roles_only (c : Config) :
    (loadConfigApplyDefaults c).roles
        = (if c.roles.isNone then some [] else c.roles) ∧
      (loadConfigApplyDefaults c).providers = c.providers ∧
      (loadConfigApplyDefaults c).version
        = (if c.version = 0 then CurrentConfigVersion else c.version) := by
  unfold loadConfigApplyDefaults
  split_ifs <;> simp_all

/-- Reading back the key just written into an association list yields the
written value. -/
theorem findAssoc_setAssoc_self {β : Type} (l : List (String × β)) (k : String) (v : β) :
    findAssoc (setAssoc l k v) k = some v := by
  induction l with
  | nil => simp [setAssoc, findAssoc]
  | cons hd tl ih =>
    obtain ⟨k2, v2⟩ := hd
    simp only [setAssoc]
    split_ifs with h
    · simp [findAssoc, h]
    · simp [findAssoc, h, ih]

/-- C10: recording a failed request with a generic (non-rate-limit) error
against a provider whose breaker is half-open leaves the breaker
half-open: the failure path opens a breaker only from the closed state. -/
theorem halfOpen_survives_generic_failure (fm : FallbackManager)
    (provider err : String) (now : Int) (cb : CircuitBreaker)
    (hcb : findAssoc fm.circuitBreaker provider = some cb)
    (hhalf : cb.state = "half-open")
    (herr : isRateLimitError (some err) = false) :
    ∃ cb2,
      findAssoc (fmRecordRequestOutcome fm provider false (some err) now).circuitBreaker
          provider = some cb2 ∧ cb2.state = "half-open" := by
  refine ⟨cbRecordFailure now cb, ?_, ?_⟩
  · simp only [fmRecordRequestOutcome, herr, if_neg, Bool.false_eq_true,
      if_false, fmRecordFailure, hcb]
    exact findAssoc_setAssoc_self _ _ _
  · simp [cbRecordFailure, hhalf]

/-- C10 witness: the half-open anthropic breaker of c10Fm stays half-open
after a failed request with the error boom. -/
theorem halfOpen_survives_generic_failure_witness :
    ∃ cb2,
      findAssoc (fmRecordRequestOutcome c10Fm "anthropic" false (some "boom") 7).circuitBreaker
          "anthropic" = some cb2 ∧ cb2.state = "half-open" :=
  halfOpen_survives_generic_failure c10Fm "anthropic" "boom" 7 _ rfl rfl (by decide)

/-- Recorded failures never move an open breaker out of the open state. -/
theorem applyFailures_open (cb : CircuitBreaker) (ts : List Int)
    (h : cb.state = "open") : (applyFailures cb ts).state = "open" := by
  induction ts generalizing cb with
  | nil => exact h
  | cons t rest ih =>
    simp only [applyFailures, List.foldl_cons]
    have hstep : (cbRecordFailure t cb).state = "open" := by
      simp [cbRecordFailure, h]
    exact ih _ hstep

/-- Below the threshold, recorded failures leave a closed breaker closed
and add up in the failure count. -/
theorem applyFailures_closed (cb : CircuitBreaker) (ts : List Int)
    (h : cb.state = "closed")
    (hlt : cb.failureCount + ts.length < cb.threshold) :
    (applyFailures cb ts).state = "closed" ∧
      (applyFailures cb ts).failureCount = cb.failureCount + ts.length := by
  induction ts generalizing cb with
  | nil => simpa [applyFailures] using h
  | cons t rest ih =>
    simp only [applyFailures, List.foldl_cons] at *
    have hnotopen : ¬ (cb.state = "closed" ∧ cb.failureCount + 1 ≥ cb.threshold) := by
      push_neg
      intro _
      simp only [List.length_cons] at hlt
      omega
    have hstep : cbRecordFailure t cb =
        { cb with failureCount := cb.failureCount + 1, lastFailure := t } := by
      simp [cbRecordFailure, hnotopen]
    rw [hstep]
    have := ih { cb with failureCount := cb.failureCount + 1, lastFailure := t }
      (by simpa using h) (by simp only [List.length_cons] at hlt; simp; omega)
    simpa using ⟨this.1, by rw [this.2]; simp only [List.length_cons]; ring⟩

/-- Once the recorded failures reach the threshold, a closed breaker ends
open. -/
theorem applyFailures_opens (cb : CircuitBreaker) (ts : List Int)
    (h : cb.state = "closed") (hne : ts ≠ [])
    (hge : cb.failureCount + ts.length ≥ cb.threshold) :
    (applyFailures cb ts).state = "open" := by
  induction ts generalizing cb with
  | nil => exact absurd rfl hne
  | cons t rest ih =>
    simp only [applyFailures, List.foldl_cons] at *
    by_cases hopen : cb.failureCount + 1 ≥ cb.threshold
    · have hstep : (cbRecordFailure t cb).state = "open" := by
        simp only [cbRecordFailure]
        rw [if_pos ⟨by simpa using h, by simpa using hopen⟩]
      exact applyFailures_open _ rest hstep
    · rcases rest with _ | ⟨t2, rest2⟩
      · exfalso
        simp only [List.length_cons, List.length_nil] at hge
        omega
      · have hstep : cbRecordFailure t cb =
            { cb with failureCount := cb.failureCount + 1, lastFailure := t } := by
          simp only [cbRecordFailure]
          rw [if_neg]
          intro hand
          exact hopen hand.2
        rw [hstep]
        exact ih _ (by simpa using h) (by simp)
          (by simp only [List.length_cons] at hge ⊢; omega)

/-- C3: a closed breaker with zero failures and positive threshold N opens
on exactly N consecutive recorded failures and on no shorter sequence; a
success while closed resets the failure count to zero without changing the
state; and the recovery sweep never promotes an open breaker before its
reset timeout has elapsed. -/
theorem circuitBreaker_claims
    (cb0 : CircuitBreaker) (ts : List Int)
    (h0 : cb0.state = "closed") (hc0 : cb0.failureCount = 0)
    (hthr : 1 ≤ cb0.threshold)
    (cb : CircuitBreaker) (t now : Int) (hcb : cb.state = "closed")
    (cb2 : CircuitBreaker) (h2 : cb2.state = "open")
    (hbefore : now - cb2.openedAt < cb2.resetTimeout) :
    ((ts.length : Int) = cb0.threshold → (applyFailures cb0 ts).state = "open") ∧
    ((ts.length : Int) < cb0.threshold → (applyFailures cb0 ts).state = "closed") ∧
    ((cbRecordSuccess t cb).state = "closed" ∧
      (cbRecordSuccess t cb).failureCount = 0) ∧
    (cbMaybeRecoverSweep now cb2).state = "open" := by
  refine ⟨?_, ?_, ?_, ?_⟩
  · intro hlen
    apply applyFailures_opens cb0 ts h0
    · intro hnil
      rw [hnil] at hlen
      simp at hlen
      omega
    · omega
  · intro hlen
    exact (applyFailures_closed cb0 ts h0 (by omega)).1
  · constructor
    · simp [cbRecordSuccess, hcb]
    · simp [cbRecordSuccess, hcb]
  · simp only [cbMaybeRecoverSweep]
    rw [if_neg]
    · exact h2
    · intro hand
      omega

/-- C3 witness: the threshold-2 breaker opens after two failures and not
after one; a success resets the three-failure closed breaker; the sweep at
time 10 leaves the breaker opened at time 8 open. -/
theorem circuitBreaker_claims_witness :
    (applyFailures c3Breaker [1, 2]).state = "open" ∧
    (applyFailures c3Breaker [1]).state = "closed" ∧
    (cbRecordSuccess 3 c3ClosedCb).state = "closed" ∧
    (cbRecordSuccess 3 c3ClosedCb).failureCount = 0 ∧
    (cbMaybeRecoverSweep 10 c3OpenCb).state = "open" := by
  obtain ⟨a1, -, a3, a4⟩ :=
    circuitBreaker_claims c3Breaker [1, 2] rfl rfl (by decide)
      c3ClosedCb 3 10 rfl c3OpenCb rfl (by decide)
  obtain ⟨-, b2, -, -⟩ :=
    circuitBreaker_claims c3Breaker [1] rfl rfl (by decide)
      c3ClosedCb 3 10 rfl c3OpenCb rfl (by decide)
  exact ⟨a1 (by decide), b2 (by decide), a3.1, a3.2, a4⟩

/-- C4: with stopOnError disabled and the middle step of a three-step
chain failing with a transport error while the outer steps succeed,
Execute still runs the third step, passes it exactly the input the second
step received (the failed second step applies no transform), and the
overall result is unsuccessful even though execution continued. -/
theorem chain_continues_past_middle_failure
    (exec : String → String → Except String ModelResponse)
    (s1 s2 s3 : ChainStep) (pc : Bool) (input : String)
    (r1 r3 : ModelResponse) (e : String)
    (h1 : exec s1.model (buildPrompt s1.prompt input) = .ok r1)
    (h1s : r1.success = true)
    (h2 : exec s2.model (buildPrompt s2.prompt (stepNextInput s1 r1)) = .error e)
    (h3 : exec s3.model (buildPrompt s3.prompt (stepNextInput s1 r1)) = .ok r3)
    (h3s : r3.success = true) :
    chainExecute exec
        { steps := [s1, s2, s3], passContext := pc, stopOnError := false } input =
      { steps :=
          [{ name := s1.name, model := s1.model, input := input
             output := r1.output, success := true, error := "" },
           { name := s2.name, model := s2.model, input := stepNextInput s1 r1
             output := "", success := false, error := e },
           { name := s3.name, model := s3.model, input := stepNextInput s1 r1
             output := r3.output, success := true, error := "" }]
        finalOutput := stepNextInput s3 r3
        totalCost := r1.cost + r3.cost
        success := false, error := "" } := by
  simp [chainExecute, chainExecuteLoop, h1, h2, h3, h1s, h3s]

/-- C4 witness: a concrete three-step chain over c4Exec, whose middle
model fails, still runs the third step on the second step's input and
reports overall failure. -/
theorem chain_continues_past_middle_failure_witness :
    chainExecute c4Exec c4Cfg "hello" =
      { steps :=
          [{ name := "draft", model := "m1", input := "hello"
             output := "out-m1", success := true, error := "" },
           { name := "review", model := "m2", input := "out-m1"
             output := "", success := false, error := "boom" },
           { name := "summarize", model := "m3", input := "out-m1"
             output := "out-m3", success := true, error := "" }]
        finalOutput := "out-m3"
        totalCost := 1 + 1
        success := false, error := "" } := by
  have := chain_continues_past_middle_failure c4Exec
    { name := "draft", model := "m1", role := "", prompt := "", transformOutput := "" }
    { name := "review", model := "m2", role := "", prompt := "", transformOutput := "trim" }
    { name := "summarize", model := "m3", role := "", prompt := "", transformOutput := "" }
    true "hello"
    { emptyModelResponse with model := "m1", output := "out-m1", success := true, cost := 1 }
    { emptyModelResponse with model := "m3", output := "out-m3", success := true, cost := 1 }
    "boom" rfl rfl rfl rfl rfl
  simpa [c4Cfg, stepNextInput, applyTransform, emptyModelResponse] using this

/-- C8: recording one successful task (role r, model m, cost 2) on a
fresh store and asking for the summary yields one total task, one
completed task, blended success rate one, total cost 2, and m as the top
model. -/
theorem recordTask_getSummary_roundtrip (r m p : String) (d tok now : Int) :
    (getSummary (recordTask emptyMetrics (c8Task r m p d tok) now)).totalTasks = 1 ∧
    (getSummary (recordTask emptyMetrics (c8Task r m p d tok) now)).completedTasks = 1 ∧
    (getSummary (recordTask emptyMetrics (c8Task r m p d tok) now)).avgSuccessRate = 1 ∧
    (getSummary (recordTask emptyMetrics (c8Task r m p d tok) now)).totalCost = 2 ∧
    (getSummary (recordTask emptyMetrics (c8Task r m p d tok) now)).topModel = m := by
  refine ⟨?_, ?_, ?_, ?_, ?_⟩ <;>
  · simp only [recordTask, getSummary, emptyMetrics, c8Task, findAssoc, setAssoc,
      incAssoc, newRoleMetrics, newModelMetrics, newProviderMetrics,
      MaxTaskHistory, Option.getD_none, List.foldl_cons, List.foldl_nil,
      apply_ite Summary.totalTasks, apply_ite Summary.completedTasks,
      apply_ite Summary.avgSuccessRate, apply_ite Summary.totalCost,
      apply_ite Summary.topModel]
    norm_num

/-- The one-task store reads back the expected role aggregate. -/
theorem c7Store_role_read : getRoleMetrics c7Store "r" = some c7RoleAggregate := by
  simp [getRoleMetrics, c7Store, recordTask, c7Task, emptyMetrics, findAssoc,
    setAssoc, incAssoc, newRoleMetrics, c7RoleAggregate, MaxTaskHistory]

/-- The one-task store reads back the expected model aggregate. -/
theorem c7Store_model_read : getModelMetrics c7Store "m" = some c7ModelAggregate := by
  simp [getModelMetrics, c7Store, recordTask, c7Task, emptyMetrics, findAssoc,
    setAssoc, incAssoc, newModelMetrics, c7ModelAggregate, MaxTaskHistory]

/-- The one-task store reads back the expected provider aggregate. -/
theorem c7Store_provider_read :
    getProviderMetrics c7Store "p" = some c7ProviderAggregate := by
  simp [getProviderMetrics, c7Store, recordTask, c7Task, emptyMetrics, findAssoc,
    setAssoc, incAssoc, newProviderMetrics, c7ProviderAggregate, MaxTaskHistory]

/-- C7 counterexample: after recording one task, a field assignment made
through the pointer GetRoleMetrics returned changes what the store
subsequently reports for that role — refuting that every read accessor
returns a value independent of the store. -/
theorem metrics_accessor_alias_counterexample :
    getRoleMetrics (writeThroughRoleAlias c7Store "r"
        (fun x => { x with totalCost := 99 })) "r"
      ≠ getRoleMetrics c7Store "r" := by
  have hbase : getRoleMetrics c7Store "r" = some c7RoleAggregate := c7Store_role_read
  have hmut : getRoleMetrics (writeThroughRoleAlias c7Store "r"
      (fun x => { x with totalCost := 99 })) "r"
      = some { c7RoleAggregate with totalCost := 99 } := by
    unfold writeThroughRoleAlias
    rw [show findAssoc c7Store.byRole "r" = some c7RoleAggregate from hbase]
    exact findAssoc_setAssoc_self _ _ _
  rw [hmut, hbase]
  simp [c7RoleAggregate]

/-- C7 (amended): GetMetrics returns an independent deep copy, but
GetRoleMetrics, GetModelMetrics and GetProviderMetrics return pointers
aliasing the store's aggregates: a field update applied through such a
pointer is exactly what every later read of that aggregate observes;
direct store mutation otherwise happens only through RecordTask,
RecordRateLimit and Reset. -/
theorem metrics_alias_writes_visible (m : Metrics) (role model provider : String)
    (f : RoleMetrics → RoleMetrics) (g : ModelMetrics → ModelMetrics)
    (h : ProviderMetrics → ProviderMetrics)
    (rm : RoleMetrics) (hrm : getRoleMetrics m role = some rm)
    (mm : ModelMetrics) (hmm : getModelMetrics m model = some mm)
    (pm : ProviderMetrics) (hpm : getProviderMetrics m provider = some pm) :
    getRoleMetrics (writeThroughRoleAlias m role f) role = some (f rm) ∧
    getModelMetrics (writeThroughModelAlias m model g) model = some (g mm) ∧
    getProviderMetrics (writeThroughProviderAlias m provider h) provider = some (h pm) := by
  simp only [getRoleMetrics, getModelMetrics, getProviderMetrics] at hrm hmm hpm
  refine ⟨?_, ?_, ?_⟩
  · simp only [writeThroughRoleAlias, hrm, getRoleMetrics]
    exact findAssoc_setAssoc_self _ _ _
  · simp only [writeThroughModelAlias, hmm, getModelMetrics]
    exact findAssoc_setAssoc_self _ _ _
  · simp only [writeThroughProviderAlias, hpm, getProviderMetrics]
    exact findAssoc_setAssoc_self _ _ _

/-- C7 witness: on the one-task store, writes through the three returned
aggregate pointers are all visible in subsequent reads. -/
theorem metrics_alias_writes_visible_witness :
    ∃ rm mm pm,
      getRoleMetrics c7Store "r" = some rm ∧
      getModelMetrics c7Store "m" = some mm ∧
      getProviderMetrics c7Store "p" = some pm ∧
      getRoleMetrics (writeThroughRoleAlias c7Store "r"
          (fun x => { x with totalCost := 99 })) "r"
        = some { rm with totalCost := 99 } ∧
      getModelMetrics (writeThroughModelAlias c7Store "m"
          (fun x => { x with totalCost := 99 })) "m"
        = some { mm with totalCost := 99 } ∧
      getProviderMetrics (writeThroughProviderAlias c7Store "p"
          (fun x => { x with totalCost := 99 })) "p"
        = some { pm with totalCost := 99 } := by
  obtain ⟨a, b, c⟩ := metrics_alias_writes_visible c7Store "r" "m" "p"
    (fun x => { x with totalCost := 99 }) (fun x => { x with totalCost := 99 })
    (fun x => { x with totalCost := 99 })
    c7RoleAggregate c7Store_role_read
    c7ModelAggregate c7Store_model_read
    c7ProviderAggregate c7Store_provider_read
  exact ⟨c7RoleAggregate, c7ModelAggregate, c7ProviderAggregate,
    c7Store_role_read, c7Store_model_read, c7Store_provider_read, a, b, c⟩

/-- A fallback chain every entry of which is unavailable yields nothing. -/
theorem tryFallbackChain_none (r : Router) (exclude : List String)
    (l : List String)
    (h : ∀ fb ∈ l, r.isModelAvailable fb exclude = false) :
    tryFallbackChain r exclude l = none := by
  induction l with
  | nil => rfl
  | cons fb rest ih =>
    simp only [tryFallbackChain]
    rw [if_neg]
    · exact ih (fun x hx => h x (List.mem_cons_of_mem fb hx))
    · simp [h fb (List.mem_cons_self fb rest)]

/-- The emergency scan returns the first provider passing the candidate
test (true recorded status, not excluded, a nonempty model list), paired
with its first advertised model. -/
theorem emergencyScanList_eq_find (status : List (String × Bool))
    (exclude : List String) (ps : List (String × ProviderConfig)) :
    emergencyScanList status exclude ps =
      (ps.find? (fun x => (findAssoc status x.1 == some true)
          && !(exclude.contains x.1) && !x.2.models.isEmpty)).map
        (fun x => (x.1, x.2.models.headD "")) := by
  induction ps with
  | nil => rfl
  | cons hd tl ih =>
    obtain ⟨p, pc⟩ := hd
    by_cases hcand : ((findAssoc status p == some true)
        && !(exclude.contains p) && !pc.models.isEmpty) = true
    · obtain ⟨⟨hb1, hb2⟩, hb3⟩ : ((findAssoc status p == some true) = true
          ∧ (!exclude.contains p) = true) ∧ (!pc.models.isEmpty) = true := by
        simpa [Bool.and_eq_true] using hcand
      have h1 : findAssoc status p = some true := by
        simpa [beq_iff_eq] using hb1
      have h2 : exclude.contains p = false := by
        simpa using hb2
      have hstep : List.find? (fun x => (findAssoc status x.1 == some true)
          && !(exclude.contains x.1) && !x.2.models.isEmpty) ((p, pc) :: tl)
          = some (p, pc) := by
        simp only [List.find?, hcand]
      rcases hm : pc.models with _ | ⟨m, ms⟩
      · rw [hm] at hb3
        simp at hb3
      · have hhit : emergencyScanList status exclude ((p, pc) :: tl)
            = some (p, m) := by
          simp only [emergencyScanList]
          rw [if_neg]
          · simp [hm]
          · rintro (h | h)
            · exact h h1
            · rw [h2] at h
              cases h
        rw [hhit, hstep]
        simp [hm]
    · have hf : ((findAssoc status p == some true)
          && !(exclude.contains p) && !pc.models.isEmpty) = false := by
        cases hb : ((findAssoc status p == some true)
            && !(exclude.contains p) && !pc.models.isEmpty)
        · rfl
        · exact absurd hb hcand
      have hstep : List.find? (fun x => (findAssoc status x.1 == some true)
          && !(exclude.contains x.1) && !x.2.models.isEmpty) ((p, pc) :: tl)
          = List.find? (fun x => (findAssoc status x.1 == some true)
            && !(exclude.contains x.1) && !x.2.models.isEmpty) tl := by
        simp only [List.find?, hf]
      have hskip : emergencyScanList status exclude ((p, pc) :: tl)
          = emergencyScanList status exclude tl := by
        simp only [emergencyScanList]
        by_cases h1 : findAssoc status p = some true
        · by_cases h2 : exclude.contains p = true
          · rw [if_pos (Or.inr h2)]
          · rw [if_neg]
            · rcases hm : pc.models with _ | ⟨m, ms⟩
              · simp [hm]
              · exfalso
                apply hcand
                have h2f : exclude.contains p = false := by
                  cases hc : exclude.contains p
                  · rfl
                  · exact absurd hc h2
                simp [h1, h2f, hm]
                simpa using h2f
            · rintro (h | h)
              · exact h h1
              · exact h2 h
        · rw [if_pos (Or.inl h1)]
      rw [hskip, ih, hstep]

/-- The router's emergency scan as a first-match search over the providers
in configuration order. -/
theorem emergencyScan_eq_find (r : Router) (exclude : List String) :
    r.emergencyScan exclude =
      ((optList r.config.providers).find? (emergencyCandidate r exclude)).map
        (fun x => (x.1, x.2.models.headD "")) := by
  unfold Router.emergencyScan emergencyCandidate
  exact emergencyScanList_eq_find r.providerStatus exclude (optList r.config.providers)

/-- C2: with no override, the role's selected model unavailable and every
fallback-chain model unavailable, Route returns the first advertised model
of the first enabled non-excluded provider that advertises one, flagged as
the emergency fallback; when no enabled non-excluded provider advertises
any model, Route fails with an error naming the role. -/
theorem route_fallback_exhaustion (r : Router) (req : RouteRequest)
    (hpref : req.preferredModel = "")
    (hprimary : r.isModelAvailable (r.roleSelectedModel req) req.excludeProviders = false)
    (hfb : ∀ fb ∈ r.config.getFallbackChain req.role,
        r.isModelAvailable fb req.excludeProviders = false) :
    (∀ p pc,
        (optList r.config.providers).find? (emergencyCandidate r req.excludeProviders)
            = some (p, pc) →
        ∃ res, r.route req = .ok res ∧ res.model = pc.models.headD "" ∧
          res.provider = p ∧ res.fallback = true ∧
          res.fallbackReason
            = "All preferred models unavailable, using emergency fallback") ∧
    ((optList r.config.providers).find? (emergencyCandidate r req.excludeProviders)
          = none →
        r.route req = .error ("no available models for role " ++ req.role)) := by
  have hroute : r.route req = r.routeAfterOverride req emptyRouteResult := by
    unfold Router.route
    rw [if_neg]
    intro hand
    exact hand.1 hpref
  have hafter : r.routeAfterOverride req emptyRouteResult =
      match r.emergencyScan req.excludeProviders with
      | some (p, m) =>
        .ok { emptyRouteResult with
                complexity := assessComplexity req.task
                rationale := r.selectedRationale req
                model := m, provider := p, fallback := true
                fallbackReason :=
                  "All preferred models unavailable, using emergency fallback" }
      | none => .error ("no available models for role " ++ req.role) := by
    unfold Router.routeAfterOverride
    rw [if_neg (by simp [hprimary]), tryFallbackChain_none r _ _ hfb]
  constructor
  · intro p pc hfind
    have hscan : r.emergencyScan req.excludeProviders = some (p, pc.models.headD "") := by
      rw [emergencyScan_eq_find, hfind]
      rfl
    refine ⟨{ emptyRouteResult with
                complexity := assessComplexity req.task
                rationale := r.selectedRationale req
                model := pc.models.headD "", provider := p, fallback := true
                fallbackReason :=
                  "All preferred models unavailable, using emergency fallback" },
      ?_, rfl, rfl, rfl, rfl⟩
    rw [hroute, hafter, hscan]
  · intro hfind
    have hscan : r.emergencyScan req.excludeProviders = none := by
      rw [emergencyScan_eq_find, hfind]
      rfl
    rw [hroute, hafter, hscan]

/-- C2 witness: over the two-provider configuration with the anthropic
provider disabled, routing the dev role lands on google's first advertised
model as the emergency fallback; over the configuration whose sole
provider is disabled, routing fails naming the role. -/
theorem route_fallback_exhaustion_witness :
    (∃ res, c2Router.route c2Req = .ok res ∧ res.model = "gemini-3-flash" ∧
      res.provider = "google" ∧ res.fallback = true ∧
      res.fallbackReason
        = "All preferred models unavailable, using emergency fallback") ∧
    c2RouterNone.route c2Req = .error "no available models for role dev" := by
  constructor
  · obtain ⟨res, h, hm, hp, hf, hr⟩ :=
      (route_fallback_exhaustion c2Router c2Req rfl (by decide) (by decide)).1
        "google"
        { enabled := true, rateLimit := 60, priority := 80
          models := ["gemini-3-flash", "gemini-3-pro"] }
        (by decide)
    exact ⟨res, h, hm, hp, hf, hr⟩
  · exact (route_fallback_exhaustion c2RouterNone c2Req rfl (by decide)
      (by decide)).2 (by decide)

/-- Filtering a cons by a successful head keeps it in front. -/
theorem successResponses_cons_pos (r : ModelResponse) (l : List ModelResponse)
    (h : r.success = true) :
    successResponses (r :: l) = r :: successResponses l := by
  simp [successResponses, List.filter_cons, h]

/-- Filtering a cons by a failed head drops it. -/
theorem successResponses_cons_neg (r : ModelResponse) (l : List ModelResponse)
    (h : r.success = false) :
    successResponses (r :: l) = successResponses l := by
  simp [successResponses, List.filter_cons, h]

/-- Membership in the vote key list is having a successful response with
that normalized output. -/
theorem mem_voteKeys_iff (l : List ModelResponse) (k : String) :
    k ∈ voteKeys l ↔ ∃ r ∈ successResponses l, normKey r = k := by
  simp [voteKeys, List.mem_dedup, List.mem_map]

/-- A successful response belongs to the group of its own key. -/
theorem mem_groupFor (l : List ModelResponse) (r : ModelResponse)
    (h : r ∈ successResponses l) : r ∈ groupFor l (normKey r) := by
  simp [groupFor, List.mem_filter, h]

/-- Group members are successful responses carrying the group's key. -/
theorem groupFor_sub (l : List ModelResponse) (k : String) (x : ModelResponse)
    (h : x ∈ groupFor l k) : x ∈ successResponses l ∧ normKey x = k := by
  simpa [groupFor, List.mem_filter] using h

/-- The default-valued head of a nonempty list is a member. -/
theorem headD_mem {α : Type} (xs : List α) (d : α) (h : xs ≠ []) :
    xs.headD d ∈ xs := by
  cases xs with
  | nil => exact absurd rfl h
  | cons x rest => simp [List.headD]

/-- The second component of the voting max fold is the running maximum of
the mapped values. -/
theorem argmaxFold_snd {α : Type} [LinearOrder α] (f : String → α)
    (keys : List String) : ∀ init : String × α,
    (argmaxFold f init keys).2 = (keys.map f).foldl max init.2 := by
  induction keys with
  | nil =>
    intro init
    rfl
  | cons k ks ih =>
    intro init
    simp only [argmaxFold, List.foldl_cons, List.map_cons] at *
    rw [ih]
    congr 1
    by_cases h : f k > init.2
    · rw [if_pos h]
      exact (max_eq_right (le_of_lt h)).symm
    · rw [if_neg h]
      exact (max_eq_left (not_lt.mp h)).symm

/-- The voting max fold either keeps its initial state or lands on a key
of the list whose value it reports. -/
theorem argmaxFold_attains {α : Type} [LinearOrder α] (f : String → α)
    (keys : List String) : ∀ init : String × α,
    argmaxFold f init keys = init ∨
      ((argmaxFold f init keys).1 ∈ keys ∧
        f (argmaxFold f init keys).1 = (argmaxFold f init keys).2) := by
  induction keys with
  | nil =>
    intro init
    exact Or.inl rfl
  | cons k ks ih =>
    intro init
    simp only [argmaxFold, List.foldl_cons] at *
    rcases ih (if f k > init.2 then (k, f k) else init) with h | h
    · rw [h]
      by_cases hk : f k > init.2
      · right
        rw [if_pos hk]
        exact ⟨List.mem_cons_self k ks, rfl⟩
      · left
        rw [if_neg hk]
    · right
      exact ⟨List.mem_cons_of_mem k h.1, h.2⟩

/-- The initial accumulator never exceeds a running max fold. -/
theorem init_le_foldl_max {α : Type} [LinearOrder α] (xs : List α) :
    ∀ a : α, a ≤ xs.foldl max a := by
  induction xs with
  | nil =>
    intro a
    exact le_refl a
  | cons y ys ih =>
    intro a
    rw [List.foldl_cons]
    exact le_trans (le_max_left a y) (ih (max a y))

/-- Every member of the list bounds a running max fold from below. -/
theorem mem_le_foldl_max {α : Type} [LinearOrder α] (xs : List α) :
    ∀ (a x : α), x ∈ xs → x ≤ xs.foldl max a := by
  induction xs with
  | nil =>
    intro a x hx
    cases hx
  | cons y ys ih =>
    intro a x hx
    rw [List.foldl_cons]
    rcases List.mem_cons.mp hx with rfl | hx
    · exact le_trans (le_max_right a x) (init_le_foldl_max ys (max a x))
    · exact ih (max a y) x hx

/-- The voting max fold keeps its state when no key strictly beats it. -/
theorem argmaxFold_no_hit {α : Type} [LinearOrder α] (f : String → α)
    (keys : List String) : ∀ init : String × α,
    (∀ k ∈ keys, ¬ f k > init.2) → argmaxFold f init keys = init := by
  induction keys with
  | nil =>
    intro init _
    rfl
  | cons k ks ih =>
    intro init h
    simp only [argmaxFold, List.foldl_cons]
    rw [if_neg (h k (List.mem_cons_self k ks))]
    exact ih init (fun k2 hk2 => h k2 (List.mem_cons_of_mem k hk2))

/-- With a strictly dominant key above the initial state, the voting max
fold lands on that key and its value. -/
theorem argmaxFold_unique {α : Type} [LinearOrder α] (f : String → α)
    (keys : List String) : ∀ (init : String × α) (k : String), k ∈ keys →
    (∀ k2 ∈ keys, k2 ≠ k → f k2 < f k) → init.2 < f k →
    argmaxFold f init keys = (k, f k) := by
  induction keys with
  | nil =>
    intro init k hk
    cases hk
  | cons k2 ks ih =>
    intro init k hk hmax hinit
    simp only [argmaxFold, List.foldl_cons] at *
    by_cases he : k2 = k
    · subst he
      rw [if_pos hinit]
      apply argmaxFold_no_hit
      intro k3 hk3
      by_cases h3 : k3 = k2
      · subst h3
        simp
      · exact not_lt.mpr (le_of_lt (hmax k3 (List.mem_cons_of_mem k2 hk3) h3))
    · have hlt : f k2 < f k := hmax k2 (List.mem_cons_self k2 ks) he
      have hk2 : k ∈ ks := by
        rcases List.mem_cons.mp hk with h | h
        · exact absurd h.symm he
        · exact h
      have hinit2 : (if f k2 > init.2 then (k2, f k2) else init).2 < f k := by
        by_cases hstep : f k2 > init.2
        · rw [if_pos hstep]
          exact hlt
        · rw [if_neg hstep]
          exact hinit
      exact ih _ k hk2
        (fun k3 h3 h3ne => hmax k3 (List.mem_cons_of_mem k2 h3) h3ne) hinit2

/-- The scan skips an unsuccessful response. -/
theorem consensusScan_cons_skip (r : ModelResponse) (rest : List ModelResponse)
    (fo : String) (fr : ModelResponse) (aa : Bool) (h : r.success = false) :
    consensusScan (r :: rest) fo fr aa = consensusScan rest fo fr aa := by
  simp [consensusScan, h]

/-- The scan adopts the first successful response while nothing is
remembered. -/
theorem consensusScan_cons_first (r : ModelResponse) (rest : List ModelResponse)
    (fr : ModelResponse) (aa : Bool) (h : r.success = true) :
    consensusScan (r :: rest) "" fr aa = consensusScan rest (normKey r) r aa := by
  simp [consensusScan, h]

/-- The scan keeps its state over a successful response matching the
remembered nonempty output. -/
theorem consensusScan_cons_match (r : ModelResponse) (rest : List ModelResponse)
    (fo : String) (fr : ModelResponse) (aa : Bool) (h : r.success = true)
    (hfo : fo ≠ "") (hn : normKey r = fo) :
    consensusScan (r :: rest) fo fr aa = consensusScan rest fo fr aa := by
  simp [consensusScan, h, hfo, hn]

/-- The scan clears the flag over a successful response disagreeing with
the remembered nonempty output. -/
theorem consensusScan_cons_clear (r : ModelResponse) (rest : List ModelResponse)
    (fo : String) (fr : ModelResponse) (aa : Bool) (h : r.success = true)
    (hfo : fo ≠ "") (hn : normKey r ≠ fo) :
    consensusScan (r :: rest) fo fr aa = consensusScan rest fo fr false := by
  simp [consensusScan, h, hfo, hn]

/-- A cleared all-agree flag stays cleared for the rest of the scan when
the remembered output is nonempty. -/
theorem consensusScan_false (l : List ModelResponse) : ∀ (fo : String)
    (fr : ModelResponse), fo ≠ "" →
    consensusScan l fo fr false = (fo, fr, false) := by
  induction l with
  | nil =>
    intro fo fr _
    rfl
  | cons r rest ih =>
    intro fo fr hfo
    by_cases hs : r.success = true
    · by_cases hn : normKey r = fo
      · rw [consensusScan_cons_match r rest fo fr false hs hfo hn]
        exact ih fo fr hfo
      · rw [consensusScan_cons_clear r rest fo fr false hs hfo hn]
        exact ih fo fr hfo
    · rw [consensusScan_cons_skip r rest fo fr false (Bool.not_eq_true _ ▸ hs)]
      exact ih fo fr hfo

/-- When every successful response carries the remembered nonempty output,
the scan returns its state unchanged. -/
theorem consensusScan_agree (l : List ModelResponse) : ∀ (fo : String)
    (fr : ModelResponse) (aa : Bool), fo ≠ "" →
    (∀ r ∈ successResponses l, normKey r = fo) →
    consensusScan l fo fr aa = (fo, fr, aa) := by
  induction l with
  | nil =>
    intro fo fr aa _ _
    rfl
  | cons r rest ih =>
    intro fo fr aa hfo hall
    by_cases hs : r.success = true
    · have hr : normKey r = fo := by
        apply hall
        rw [successResponses_cons_pos r rest hs]
        exact List.mem_cons_self r _
      rw [consensusScan_cons_match r rest fo fr aa hs hfo hr]
      apply ih fo fr aa hfo
      intro x hx
      apply hall
      rw [successResponses_cons_pos r rest hs]
      exact List.mem_cons_of_mem r hx
    · have hs2 : r.success = false := Bool.not_eq_true _ ▸ hs
      rw [consensusScan_cons_skip r rest fo fr aa hs2]
      apply ih fo fr aa hfo
      intro x hx
      apply hall
      rw [successResponses_cons_neg r rest hs2]
      exact hx

/-- A successful response disagreeing with the remembered nonempty output
clears the all-agree flag for good. -/
theorem consensusScan_mismatch (l : List ModelResponse) : ∀ (fo : String)
    (fr : ModelResponse), fo ≠ "" →
    (∃ r ∈ successResponses l, normKey r ≠ fo) →
    consensusScan l fo fr true = (fo, fr, false) := by
  induction l with
  | nil =>
    intro fo fr _ h
    obtain ⟨r, hr, -⟩ := h
    simp [successResponses] at hr
  | cons r rest ih =>
    intro fo fr hfo h
    by_cases hs : r.success = true
    · by_cases hn : normKey r = fo
      · rw [consensusScan_cons_match r rest fo fr true hs hfo hn]
        apply ih fo fr hfo
        obtain ⟨r2, hr2, hne2⟩ := h
        rw [successResponses_cons_pos r rest hs] at hr2
        rcases List.mem_cons.mp hr2 with rfl | hmem
        · exact absurd hn hne2
        · exact ⟨r2, hmem, hne2⟩
      · rw [consensusScan_cons_clear r rest fo fr true hs hfo hn]
        exact consensusScan_false rest fo fr hfo
    · have hs2 : r.success = false := Bool.not_eq_true _ ▸ hs
      rw [consensusScan_cons_skip r rest fo fr true hs2]
      apply ih fo fr hfo
      obtain ⟨r2, hr2, hne2⟩ := h
      rw [successResponses_cons_neg r rest hs2] at hr2
      exact ⟨r2, hr2, hne2⟩

/-- Starting from the empty remembered output: when the first successful
response has a nonempty key every later successful response matches, the
scan lands on that response with the flag still set. -/
theorem consensusScan_start_agree (l : List ModelResponse) :
    ∀ (fr0 r0 : ModelResponse),
    (successResponses l).head? = some r0 → normKey r0 ≠ "" →
    (∀ r ∈ successResponses l, normKey r = normKey r0) →
    consensusScan l "" fr0 true = (normKey r0, r0, true) := by
  induction l with
  | nil =>
    intro fr0 r0 h0
    simp [successResponses] at h0
  | cons r rest ih =>
    intro fr0 r0 h0 hne hall
    by_cases hs : r.success = true
    · have hr0 : r0 = r := by
        rw [successResponses_cons_pos r rest hs] at h0
        simpa [List.head?] using h0.symm
      subst hr0
      rw [consensusScan_cons_first r0 rest fr0 true hs]
      apply consensusScan_agree rest (normKey r0) r0 true hne
      intro x hx
      apply hall
      rw [successResponses_cons_pos r0 rest hs]
      exact List.mem_cons_of_mem r0 hx
    · have hs2 : r.success = false := Bool.not_eq_true _ ▸ hs
      rw [consensusScan_cons_skip r rest "" fr0 true hs2]
      rw [successResponses_cons_neg r rest hs2] at h0 hall
      exact ih fr0 r0 h0 hne hall

/-- Starting from the empty remembered output with every successful key
nonempty: disagreement among the successful responses clears the flag. -/
theorem consensusScan_start_mismatch (l : List ModelResponse) :
    ∀ fr0 : ModelResponse,
    (∀ r ∈ successResponses l, normKey r ≠ "") →
    ¬ allSuccessfulAgree l →
    (consensusScan l "" fr0 true).2.2 = false := by
  induction l with
  | nil =>
    intro fr0 _ hmis
    exact absurd (by intro r hr; simp [successResponses] at hr) hmis
  | cons r rest ih =>
    intro fr0 hne hmis
    by_cases hs : r.success = true
    · rw [consensusScan_cons_first r rest fr0 true hs]
      have hrs : r ∈ successResponses (r :: rest) := by
        rw [successResponses_cons_pos r rest hs]
        exact List.mem_cons_self r _
      have hner : normKey r ≠ "" := hne r hrs
      by_cases hex : ∃ r2 ∈ successResponses rest, normKey r2 ≠ normKey r
      · rw [consensusScan_mismatch rest (normKey r) r hner hex]
      · exfalso
        apply hmis
        push_neg at hex
        intro r1 hr1 r2 hr2
        rw [successResponses_cons_pos r rest hs] at hr1 hr2
        have key : ∀ x, x ∈ r :: successResponses rest → normKey x = normKey r := by
          intro x hx
          rcases List.mem_cons.mp hx with rfl | hx
          · rfl
          · exact hex x hx
        rw [key r1 hr1, key r2 hr2]
    · have hs2 : r.success = false := Bool.not_eq_true _ ▸ hs
      rw [consensusScan_cons_skip r rest "" fr0 true hs2]
      apply ih fr0
      · intro x hx
        apply hne x
        rw [successResponses_cons_neg r rest hs2]
        exact hx
      · intro hagree
        apply hmis
        intro r1 hr1 r2 hr2
        rw [successResponses_cons_neg r rest hs2] at hr1 hr2
        exact hagree r1 hr1 r2 hr2

/-- C5 counterexample: over a single successful response whose output
normalizes to the empty string, every successful response trivially has
the same normalized output, yet consensus voting does not return that
response with agreement 1 — it falls through to majority voting, whose
empty-key guard yields agreement 0.  This refutes the claim as stated. -/
theorem voteConsensus_counterexample :
    allSuccessfulAgree [respEmpty] ∧ (voteConsensus [respEmpty]).2 ≠ 1 := by
  constructor
  · decide
  · have h : voteConsensus [respEmpty] = (emptyModelResponse, 0) := rfl
    rw [h]
    norm_num

/-- C5 (amended): for responses whose successful normalized outputs are
all nonempty: when there is a successful response and all successful
responses share one normalized output, consensus returns the first
successful response with agreement exactly 1; otherwise consensus returns
exactly the majority result; and majority voting then reports agreement
equal to the largest group size over the successful count, its winner
being a successful response from a group of maximal size. -/
theorem voteConsensus_characterization (l : List ModelResponse)
    (hne : ∀ r ∈ successResponses l, normKey r ≠ "") :
    (∀ r0, (successResponses l).head? = some r0 → allSuccessfulAgree l →
      voteConsensus l = (r0, 1)) ∧
    (¬ allSuccessfulAgree l → voteConsensus l = voteMajority l) ∧
    (∀ r0, (successResponses l).head? = some r0 →
      (voteMajority l).2
          = (maxGroupSize l : ℚ) / ((successResponses l).length : ℚ) ∧
        (∀ k ∈ voteKeys l, (groupFor l k).length ≤ maxGroupSize l) ∧
        (voteMajority l).1 ∈ successResponses l ∧
        (groupFor l (normKey (voteMajority l).1)).length = maxGroupSize l) := by
  refine ⟨?_, ?_, ?_⟩
  · intro r0 h0 hagree
    have hmem : r0 ∈ successResponses l :=
      List.mem_of_mem_head? (Option.mem_def.mpr h0)
    have hner0 : normKey r0 ≠ "" := hne r0 hmem
    have hscan := consensusScan_start_agree l emptyModelResponse r0 h0 hner0
      (fun r hr => hagree r hr r0 hmem)
    simp [voteConsensus, hscan, hner0]
  · intro hmis
    have hscan := consensusScan_start_mismatch l emptyModelResponse hne hmis
    simp [voteConsensus, hscan]
  · intro r0 h0
    have hmem : r0 ∈ successResponses l :=
      List.mem_of_mem_head? (Option.mem_def.mpr h0)
    have hk0 : normKey r0 ∈ voteKeys l :=
      (mem_voteKeys_iff l _).mpr ⟨r0, hmem, rfl⟩
    have hf1 : 1 ≤ (groupFor l (normKey r0)).length := by
      have hgmem := mem_groupFor l r0 hmem
      have hpos := List.length_pos.mpr (List.ne_nil_of_mem hgmem)
      omega
    have hsnd : (argmaxFold (fun k => (groupFor l k).length) ("", 0)
        (voteKeys l)).2 = maxGroupSize l := by
      rw [argmaxFold_snd]
      rfl
    have hmax_ge : (groupFor l (normKey r0)).length
        ≤ (argmaxFold (fun k => (groupFor l k).length) ("", 0) (voteKeys l)).2 := by
      rw [argmaxFold_snd]
      exact mem_le_foldl_max _ _ _
        (List.mem_map_of_mem (fun k => (groupFor l k).length) hk0)
    rcases argmaxFold_attains (fun k => (groupFor l k).length) (voteKeys l)
        ("", 0) with heq | ⟨hmem1, hfeq⟩
    · exfalso
      rw [heq] at hmax_ge
      have hz : (groupFor l (normKey r0)).length ≤ 0 := hmax_ge
      omega
    · have hamne : (argmaxFold (fun k => (groupFor l k).length) ("", 0)
          (voteKeys l)).1 ≠ "" := by
        obtain ⟨r2, hr2, hkey⟩ := (mem_voteKeys_iff l _).mp hmem1
        rw [← hkey]
        exact hne r2 hr2
      have hgne : groupFor l (argmaxFold (fun k => (groupFor l k).length)
          ("", 0) (voteKeys l)).1 ≠ [] := by
        obtain ⟨r2, hr2, hkey⟩ := (mem_voteKeys_iff l _).mp hmem1
        rw [← hkey]
        exact List.ne_nil_of_mem (mem_groupFor l r2 hr2)
      have hvm : voteMajority l
          = ((groupFor l (argmaxFold (fun k => (groupFor l k).length) ("", 0)
                (voteKeys l)).1).headD emptyModelResponse,
             ((argmaxFold (fun k => (groupFor l k).length) ("", 0)
                (voteKeys l)).2 : ℚ) / ((successResponses l).length : ℚ)) := by
        simp only [voteMajority]
        rw [if_neg hamne]
      have hwin := headD_mem _ emptyModelResponse hgne
      have hwsub := groupFor_sub l _ _ hwin
      refine ⟨?_, ?_, ?_, ?_⟩
      · rw [hvm, hsnd]
      · intro k hk
        have := mem_le_foldl_max
          ((voteKeys l).map (fun k => (groupFor l k).length)) 0
          ((groupFor l k).length)
          (List.mem_map_of_mem (fun k => (groupFor l k).length) hk)
        simpa [maxGroupSize] using this
      · rw [hvm]
        exact hwsub.1
      · rw [hvm]
        simp only
        rw [hwsub.2, hfeq, hsnd]

/-- C5 witness: over responses normalizing to a, a the consensus returns
the first response with agreement 1; over a, a, b it degrades to exactly
the majority result, whose agreement is 2/3. -/
theorem voteConsensus_characterization_witness :
    voteConsensus [respA, respa] = (respA, 1) ∧
    voteConsensus [respA, respa, respB] = voteMajority [respA, respa, respB] ∧
    (voteMajority [respA, respa, respB]).2 = ((2 : ℕ) : ℚ) / ((3 : ℕ) : ℚ) := by
  refine ⟨?_, ?_, ?_⟩
  · exact (voteConsensus_characterization [respA, respa] (by decide)).1
      respA (by decide) (by decide)
  · exact (voteConsensus_characterization [respA, respa, respB] (by decide)).2.1
      (by decide)
  · have h := ((voteConsensus_characterization [respA, respa, respB]
        (by decide)).2.2 respA (by decide)).1
    rw [h]
    have h1 : maxGroupSize [respA, respa, respB] = 2 := by decide
    have h2 : (successResponses [respA, respa, respB]).length = 3 := by decide
    rw [h1, h2]

/-- C6 counterexample: voting is not invariant to the order of the
responses.  Over two responses normalizing to the same key, reversing the
order changes the winning output majority voting returns (the group keeps
arrival order and the first member wins); over a response with an
empty normalized output and one with a nonempty one, reversing the order
changes both majority voting's agreement (the empty key wins the tie in
one order and trips the empty-winner guard) and consensus voting's
agreement (the leading empty output is absorbed into the first-seen slot
in one order only).  This refutes the claim as stated. -/
theorem vote_order_counterexample :
    [respA, respa].Perm [respa, respA] ∧
    (voteMajority [respA, respa]).1.output
      ≠ (voteMajority [respa, respA]).1.output ∧
    [respEmpty, respa].Perm [respa, respEmpty] ∧
    (voteMajority [respEmpty, respa]).2 ≠ (voteMajority [respa, respEmpty]).2 ∧
    (voteConsensus [respEmpty, respa]).2
      ≠ (voteConsensus [respa, respEmpty]).2 := by
  refine ⟨by decide, by decide, by decide, ?_, ?_⟩
  · rw [show (voteMajority [respEmpty, respa]).2 = 0 from rfl,
      show (voteMajority [respa, respEmpty]).2 = ((1 : ℕ) : ℚ) / ((2 : ℕ) : ℚ)
        from rfl]
    norm_num
  · rw [show (voteConsensus [respEmpty, respa]).2 = 1 from rfl,
      show (voteConsensus [respa, respEmpty]).2 = ((1 : ℕ) : ℚ) / ((2 : ℕ) : ℚ)
        from rfl]
    norm_num

/-- C6 (amended): the agreement score is invariant under permutation of
the responses for majority voting whenever one normalized-output group is
strictly larger than every other, and for weighted voting whenever one
group's weight is strictly greater than every other's and positive; the
winning output, tie cases, and consensus voting's agreement may depend on
arrival order. -/
theorem vote_agreement_perm_invariant (l l2 : List ModelResponse)
    (hperm : l.Perm l2) (k kw : String)
    (hk : k ∈ voteKeys l)
    (hmaj : ∀ k2 ∈ voteKeys l, k2 ≠ k →
      (groupFor l k2).length < (groupFor l k).length)
    (hkw : kw ∈ voteKeys l)
    (hw : ∀ k2 ∈ voteKeys l, k2 ≠ kw → weightFor l k2 < weightFor l kw)
    (hwpos : 0 < weightFor l kw) :
    (voteMajority l).2 = (voteMajority l2).2 ∧
    (voteWeighted l).2 = (voteWeighted l2).2 := by
  have hsuccP : (successResponses l).Perm (successResponses l2) :=
    hperm.filter _
  have hlen : (successResponses l).length = (successResponses l2).length :=
    hsuccP.length_eq
  have hgroup : ∀ key, (groupFor l key).Perm (groupFor l2 key) :=
    fun key => hsuccP.filter _
  have hglen : ∀ key, (groupFor l key).length = (groupFor l2 key).length :=
    fun key => (hgroup key).length_eq
  have hkeysP : (voteKeys l).Perm (voteKeys l2) := (hsuccP.map _).dedup
  have hwf : ∀ key, weightFor l key = weightFor l2 key :=
    fun key => ((hgroup key).map _).sum_eq
  have hf1 : 1 ≤ (groupFor l k).length := by
    obtain ⟨r2, hr2, hkey⟩ := (mem_voteKeys_iff l k).mp hk
    have := List.length_pos.mpr
      (List.ne_nil_of_mem (hkey ▸ mem_groupFor l r2 hr2))
    omega
  have ham1 : argmaxFold (fun key => (groupFor l key).length) ("", 0)
      (voteKeys l) = (k, (groupFor l k).length) :=
    argmaxFold_unique _ (voteKeys l) ("", 0) k hk hmaj hf1
  have ham2 : argmaxFold (fun key => (groupFor l2 key).length) ("", 0)
      (voteKeys l2) = (k, (groupFor l2 k).length) := by
    apply argmaxFold_unique _ _ _ k (hkeysP.mem_iff.mp hk)
    · intro k2 hk2 hne2
      rw [← hglen k2, ← hglen k]
      exact hmaj k2 (hkeysP.mem_iff.mpr hk2) hne2
    · show 0 < (groupFor l2 k).length
      rw [← hglen k]
      omega
  constructor
  · simp only [voteMajority, ham1, ham2]
    by_cases hke : k = ""
    · rw [if_pos hke, if_pos hke]
    · rw [if_neg hke, if_neg hke]
      simp only
      rw [hglen k, hlen]
  · have hamw1 : argmaxFold (weightFor l) ("", 0) (voteKeys l)
        = (kw, weightFor l kw) :=
      argmaxFold_unique _ (voteKeys l) ("", 0) kw hkw hw hwpos
    have hamw2 : argmaxFold (weightFor l2) ("", 0) (voteKeys l2)
        = (kw, weightFor l2 kw) := by
      apply argmaxFold_unique _ _ _ kw (hkeysP.mem_iff.mp hkw)
      · intro k2 hk2 hne2
        rw [← hwf k2, ← hwf kw]
        exact hw k2 (hkeysP.mem_iff.mpr hk2) hne2
      · show 0 < weightFor l2 kw
        rw [← hwf kw]
        exact hwpos
    have htot : ((voteKeys l).map (weightFor l)).sum
        = ((voteKeys l2).map (weightFor l2)).sum := by
      have hmapeq : (voteKeys l2).map (weightFor l2)
          = (voteKeys l2).map (weightFor l) :=
        List.map_congr_left (fun a _ => (hwf a).symm)
      rw [hmapeq]
      exact (hkeysP.map (weightFor l)).sum_eq
    simp only [voteWeighted, hamw1, hamw2]
    by_cases hke : kw = ""
    · rw [if_pos hke, if_pos hke]
    · rw [if_neg hke, if_neg hke]
      simp only
      rw [hwf kw, htot]

/-- C6 witness: over the three-response list whose a-group strictly
dominates, the majority and weighted agreement scores agree with those of
the reversed list. -/
theorem vote_agreement_perm_invariant_witness :
    (voteMajority c6L).2 = (voteMajority c6L2).2 ∧
    (voteWeighted c6L).2 = (voteWeighted c6L2).2 := by
  have hwa : weightFor c6L "a" = 1/2 + (1/2 + 0) := rfl
  have hwb : weightFor c6L "b" = 1/2 + 0 := rfl
  apply vote_agreement_perm_invariant c6L c6L2 (by decide) "a" "a"
    (by decide) (by decide) (by decide)
  · intro k2 hk2 hne2
    have hkeys : voteKeys c6L = ["a", "b"] := rfl
    rw [hkeys] at hk2
    simp only [List.mem_cons, List.mem_singleton] at hk2
    rcases hk2 with rfl | hk2
    · exact absurd rfl hne2
    · rcases hk2 with rfl | hk2
      · rw [hwa, hwb]
        norm_num
      · simp at hk2
  · rw [hwa]
    norm_num

end Council
